import Mathlib

/-!
# Verification of the Cascade two-mortgage engine

This file is a shallow embedding, over the rationals, of the simulation
engine in src/engine.js, together with proofs and refutations of the
specified properties.  Monetary values are rationals; the engine rounds
every monetary quantity to cents with JS-style round-half-up, which is
modelled exactly by the floor of x + 1/2.  Loops with a safety cap are
modelled by fuel-based recursion with the fuel set to the cap, and the
cap error becomes the error branch of an Except value.
-/

/-- Rounds to 2 decimal places, mirroring
Math.round(n * 100) / 100 (JS Math.round is floor(x + 1/2)). -/
def roundMoney (q : ℚ) : ℚ :=
  (⌊q * 100 + 1 / 2⌋ : ℚ) / 100

/-- Saturates a number into the interval lo..hi. -/
def clamp (q lo hi : ℚ) : ℚ :=
  min (max q lo) hi

/-- A raw mortgage as supplied by the caller (any numeric values). -/
structure RawMortgage where
  balance : ℚ
  rate : ℚ
  months : ℚ
deriving DecidableEq

/-- A normalised mortgage: balance in cents, rate a percentage, integral
term in months. -/
structure Mortgage where
  balance : ℚ
  rate : ℚ
  months : ℕ
deriving DecidableEq

/-- normaliseMortgage from engine.js.  JS falsy-defaulting (x || 0) is the
identity on rational inputs, and Math.max(1, Math.floor(months || 1))
coincides with max 1 (floor months).toNat on rationals. -/
def normaliseMortgage (m : RawMortgage) : Mortgage :=
  { balance := roundMoney (clamp m.balance 1 100000000)
    rate := clamp m.rate 0 25
    months := max 1 (⌊m.months⌋.toNat) }

/-- normaliseExtra from engine.js. -/
def normaliseExtra (extra : ℚ) : ℚ :=
  roundMoney (clamp extra 0 1000000)

/-- Standard amortisation formula, monthlyPayment from engine.js. -/
def monthlyPayment (principal annualRate : ℚ) (totalMonths : ℕ) : ℚ :=
  if annualRate = 0 then principal / totalMonths
  else
    let r := annualRate / 100 / 12
    principal * (r * (1 + r) ^ totalMonths) / ((1 + r) ^ totalMonths - 1)

/-- computeScheduledPayment from engine.js: rounds the amortisation
payment to cents, floors it at one penny, and bumps it above the first
month of interest when the rate is positive. -/
def computeScheduledPayment (m : Mortgage) : ℚ :=
  let scheduled0 := roundMoney (monthlyPayment m.balance m.rate m.months)
  let scheduled1 := if scheduled0 < 1 / 100 then 1 / 100 else scheduled0
  if 0 < m.rate then
    let r := m.rate / 100 / 12
    let firstInterest := roundMoney (m.balance * r)
    if scheduled1 ≤ firstInterest then roundMoney (firstInterest + 1 / 100)
    else scheduled1
  else scheduled1

/-- The 12000-month safety cap of engine.js. -/
def MAX_MONTHS : ℕ := 1000 * 12

/-- Loop state of simulateSingle: current balance, months counter,
running interest total, and the recorded balance sequence. -/
structure SingleLoopState where
  balance : ℚ
  months : ℕ
  interestTotal : ℚ
  balances : List ℚ
deriving DecidableEq

/-- One while-loop execution of simulateSingle, with the remaining
loop budget (MAX_MONTHS - months) as fuel.  The balance sequence is
accumulated most-recent-first (a functional push) and is reversed into
push order when the simulation returns. -/
def ssGo (r sched extra : ℚ) : ℕ → SingleLoopState → SingleLoopState
  | 0, st => st
  | fuel + 1, st =>
    if 0 < st.balance then
      let interest := roundMoney (st.balance * r)
      let principal0 := roundMoney (sched - interest)
      let principal := if principal0 < 0 then 0 else principal0
      let totalPayment := roundMoney (principal + extra)
      if st.balance ≤ totalPayment then
        { balance := 0
          months := st.months + 1
          interestTotal := roundMoney (st.interestTotal + interest)
          balances := 0 :: st.balances }
      else
        ssGo r sched extra fuel
          { balance := roundMoney (st.balance - totalPayment)
            months := st.months + 1
            interestTotal := roundMoney (st.interestTotal + interest)
            balances := roundMoney (st.balance - totalPayment) :: st.balances }
    else st

/-- Result of simulateSingle. -/
structure SingleResult where
  months : ℕ
  interest : ℚ
  balances : List ℚ
deriving DecidableEq

/-- simulateSingle from engine.js.  The safety-cap throw is the error
branch. -/
def simulateSingle (m : Mortgage) (extra : ℚ) : Except String SingleResult :=
  let r := m.rate / 100 / 12
  let scheduled := computeScheduledPayment m
  let out := ssGo r scheduled extra MAX_MONTHS
    { balance := m.balance, months := 0, interestTotal := 0, balances := [m.balance] }
  if out.months = MAX_MONTHS then Except.error "Single simulation exceeded safety cap."
  else Except.ok
    { months := out.months, interest := out.interestTotal, balances := out.balances.reverse }

/-- Result of simulateBaseline. -/
structure BaselineResult where
  months : ℕ
  interest : ℚ
  balances : List ℚ
  m1 : SingleResult
  m2 : SingleResult
deriving DecidableEq

/-- simulateBaseline from engine.js: two independent single-loan runs,
plus the elementwise rounded sum of their balance sequences (absent
entries read as 0, as with the JS (xs[i] || 0) access). -/
def simulateBaseline (m1 m2 : Mortgage) (extra1 extra2 : ℚ) :
    Except String BaselineResult := do
  let b1 ← simulateSingle m1 extra1
  let b2 ← simulateSingle m2 extra2
  let maxLen := max b1.balances.length b2.balances.length
  let balances := (List.range maxLen).map
    (fun i => roundMoney (b1.balances.getD i 0 + b2.balances.getD i 0))
  return { months := max b1.months b2.months
           interest := roundMoney (b1.interest + b2.interest)
           balances := balances
           m1 := b1
           m2 := b2 }

/-- Allocation strategy tag. -/
inductive Strategy where
  | avalanche : Strategy
  | snowball : Strategy
deriving DecidableEq

/-- The parameters of one cascade run. -/
structure CascCfg where
  m1 : Mortgage
  m2 : Mortgage
  extra1 : ℚ
  extra2 : ℚ
  redirectScheduled : Bool
  redirectExtra : Bool
  strategy : Strategy
deriving DecidableEq

/-- Monthly rate of the first mortgage. -/
def CascCfg.r1 (cfg : CascCfg) : ℚ := cfg.m1.rate / 100 / 12

/-- Monthly rate of the second mortgage. -/
def CascCfg.r2 (cfg : CascCfg) : ℚ := cfg.m2.rate / 100 / 12

/-- Scheduled payment of the first mortgage. -/
def CascCfg.sched1 (cfg : CascCfg) : ℚ := computeScheduledPayment cfg.m1

/-- Scheduled payment of the second mortgage. -/
def CascCfg.sched2 (cfg : CascCfg) : ℚ := computeScheduledPayment cfg.m2

/-- One YearlySummary row pushed by simulateCascade. -/
structure YearlySummary where
  year : ℕ
  interest : ℚ
  fromM1 : ℚ
  fromM2 : ℚ
  extraToM1 : ℚ
  extraToM2 : ℚ
  endBalanceM1 : ℚ
  endBalanceM2 : ℚ
deriving DecidableEq

/-- Loop state of simulateCascade: both balances, month counter, overall
and per-year accumulators, attribution totals, the three recorded
balance sequences and the yearly rows. -/
structure CascSt where
  b1 : ℚ
  b2 : ℚ
  months : ℕ
  interestTotal : ℚ
  yearInterest : ℚ
  yearExtra : ℚ
  yearExtraToM1 : ℚ
  yearExtraToM2 : ℚ
  yearFromM1 : ℚ
  yearFromM2 : ℚ
  m1ExtraPaidToM1 : ℚ
  m1ExtraPaidToM2 : ℚ
  m2ExtraPaidToM1 : ℚ
  m2ExtraPaidToM2 : ℚ
  balances : List ℚ
  m1Balances : List ℚ
  m2Balances : List ℚ
  yearly : List YearlySummary
deriving DecidableEq

/-- Interest accrued by an active loan this month (inactive loans accrue
none), mirroring b > 0 ? roundMoney(b * r) : 0. -/
def monthInterest (b r : ℚ) : ℚ :=
  if 0 < b then roundMoney (b * r) else 0

/-- The scheduled principal actually subtracted this month, mirroring
p = Math.max(0, Math.min(roundMoney(sched - i), b)) with p forced to 0
for an inactive loan. -/
def schedPrincipal (b sched i : ℚ) : ℚ :=
  max 0 (min (if 0 < b then roundMoney (sched - i) else 0) b)

/-- A loan balance after this month's scheduled payment. -/
def postSched (b sched r : ℚ) : ℚ :=
  roundMoney (b - schedPrincipal b sched (monthInterest b r))

/-- Interest accrual and scheduled payments: the first section of the
simulateCascade loop body (months++, per-loan interest if active, the
clamped scheduled principal, and the resulting balances). -/
def cascAccrue (cfg : CascCfg) (st : CascSt) : CascSt :=
  let i1 := monthInterest st.b1 cfg.r1
  let i2 := monthInterest st.b2 cfg.r2
  let p1 := schedPrincipal st.b1 cfg.sched1 i1
  let p2 := schedPrincipal st.b2 cfg.sched2 i2
  { st with
    months := st.months + 1
    interestTotal := roundMoney (st.interestTotal + i1 + i2)
    yearInterest := roundMoney (st.yearInterest + i1 + i2)
    b1 := roundMoney (st.b1 - p1)
    b2 := roundMoney (st.b2 - p2) }

/-- Source contributions for the month, from the balances left after
the scheduled payments: both active pools only the voluntary extras; a
cleared loan contributes its extra only under redirectExtra and its
scheduled payment only under redirectScheduled. -/
def cascFrom (cfg : CascCfg) (b1 b2 : ℚ) : ℚ × ℚ :=
  if 0 < b1 ∧ 0 < b2 then (cfg.extra1, cfg.extra2)
  else if b1 ≤ 0 ∧ 0 < b2 then
    ((if cfg.redirectExtra then cfg.extra1 else 0) +
      (if cfg.redirectScheduled then cfg.sched1 else 0), cfg.extra2)
  else if b2 ≤ 0 ∧ 0 < b1 then
    (cfg.extra1, (if cfg.redirectExtra then cfg.extra2 else 0) +
      (if cfg.redirectScheduled then cfg.sched2 else 0))
  else (0, 0)

/-- Pool allocation: while both loans are active the strategy picks one
target (avalanche: higher rate, ties to the first; snowball: smaller
balance, ties to the first) and the pool, capped at the target balance,
is applied there with proportional source attribution; with a single
active loan the whole pool goes to it and the full (uncapped) sources
are attributed. -/
def cascAllocate (cfg : CascCfg) (st : CascSt) : CascSt :=
  let fromM1 := (cascFrom cfg st.b1 st.b2).1
  let fromM2 := (cascFrom cfg st.b1 st.b2).2
  let availableExtra := fromM1 + fromM2
  if 0 < st.b1 ∧ 0 < st.b2 then
    let targetM1 : Bool :=
      match cfg.strategy with
      | Strategy.avalanche => decide (cfg.m2.rate ≤ cfg.m1.rate)
      | Strategy.snowball => decide (st.b1 ≤ st.b2)
    let totalSource := fromM1 + fromM2
    if targetM1 then
      let used := min availableExtra st.b1
      let base :=
        { st with
          b1 := roundMoney (st.b1 - used)
          yearExtra := st.yearExtra + used
          yearExtraToM1 := st.yearExtraToM1 + used }
      if 0 < totalSource then
        let m1Share := used * (fromM1 / totalSource)
        let m2Share := used * (fromM2 / totalSource)
        { base with
          yearFromM1 := st.yearFromM1 + m1Share
          yearFromM2 := st.yearFromM2 + m2Share
          m1ExtraPaidToM1 := st.m1ExtraPaidToM1 + m1Share
          m2ExtraPaidToM1 := st.m2ExtraPaidToM1 + m2Share }
      else base
    else
      let used := min availableExtra st.b2
      let base :=
        { st with
          b2 := roundMoney (st.b2 - used)
          yearExtra := st.yearExtra + used
          yearExtraToM2 := st.yearExtraToM2 + used }
      if 0 < totalSource then
        let m1Share := used * (fromM1 / totalSource)
        let m2Share := used * (fromM2 / totalSource)
        { base with
          yearFromM1 := st.yearFromM1 + m1Share
          yearFromM2 := st.yearFromM2 + m2Share
          m1ExtraPaidToM2 := st.m1ExtraPaidToM2 + m1Share
          m2ExtraPaidToM2 := st.m2ExtraPaidToM2 + m2Share }
      else base
  else if 0 < st.b1 then
    let used := min availableExtra st.b1
    { st with
      b1 := roundMoney (st.b1 - used)
      yearExtra := st.yearExtra + used
      yearExtraToM1 := st.yearExtraToM1 + used
      yearFromM1 := st.yearFromM1 + fromM1
      yearFromM2 := st.yearFromM2 + fromM2
      m1ExtraPaidToM1 := st.m1ExtraPaidToM1 + fromM1
      m2ExtraPaidToM1 := st.m2ExtraPaidToM1 + fromM2 }
  else if 0 < st.b2 then
    let used := min availableExtra st.b2
    { st with
      b2 := roundMoney (st.b2 - used)
      yearExtra := st.yearExtra + used
      yearExtraToM2 := st.yearExtraToM2 + used
      yearFromM1 := st.yearFromM1 + fromM1
      yearFromM2 := st.yearFromM2 + fromM2
      m1ExtraPaidToM2 := st.m1ExtraPaidToM2 + fromM1
      m2ExtraPaidToM2 := st.m2ExtraPaidToM2 + fromM2 }
  else st

/-- Near-zero snapping (balances under one cent become exactly 0) and
trace recording, most-recent-first as in ssGo. -/
def cascSnapRecord (st : CascSt) : CascSt :=
  let b1r := roundMoney st.b1
  let b2r := roundMoney st.b2
  let b1f := if b1r < 1 / 100 then 0 else b1r
  let b2f := if b2r < 1 / 100 then 0 else b2r
  { st with
    b1 := b1f
    b2 := b2f
    balances := roundMoney (b1f + b2f) :: st.balances
    m1Balances := roundMoney b1f :: st.m1Balances
    m2Balances := roundMoney b2f :: st.m2Balances }

/-- Year-boundary close-out: every 12th month, or at final payoff, a
YearlySummary row is recorded and the per-year accumulators reset. -/
def cascYearEnd (st : CascSt) : CascSt :=
  if st.months % 12 = 0 ∨ (st.b1 ≤ 0 ∧ st.b2 ≤ 0) then
    { st with
      yearly :=
        { year := (st.months + 11) / 12
          interest := roundMoney st.yearInterest
          fromM1 := roundMoney st.yearFromM1
          fromM2 := roundMoney st.yearFromM2
          extraToM1 := roundMoney st.yearExtraToM1
          extraToM2 := roundMoney st.yearExtraToM2
          endBalanceM1 := roundMoney st.b1
          endBalanceM2 := roundMoney st.b2 } :: st.yearly
      yearInterest := 0
      yearExtra := 0
      yearExtraToM1 := 0
      yearExtraToM2 := 0
      yearFromM1 := 0
      yearFromM2 := 0 }
  else st

/-- One iteration of the simulateCascade while-loop body: interest
accrual and scheduled payments, pooled-contribution construction and
allocation, near-zero snapping with trace recording, and the
year-boundary close-out.  The trace lists and the yearly rows are
accumulated most-recent-first and reversed into push order when the
simulation returns. -/
def cascMonth (cfg : CascCfg) (st : CascSt) : CascSt :=
  cascYearEnd (cascSnapRecord (cascAllocate cfg (cascAccrue cfg st)))

/-- The simulateCascade while loop, fuelled by the remaining loop
budget; it stops early once both balances are cleared. -/
def cascGo (cfg : CascCfg) : ℕ → CascSt → CascSt
  | 0, st => st
  | fuel + 1, st =>
    if st.b1 ≤ 0 ∧ st.b2 ≤ 0 then st
    else cascGo cfg fuel (cascMonth cfg st)

/-- Attribution totals of a cascade run. -/
structure Attribution where
  m1ExtraPaidToM1 : ℚ
  m1ExtraPaidToM2 : ℚ
  m2ExtraPaidToM1 : ℚ
  m2ExtraPaidToM2 : ℚ
deriving DecidableEq

/-- Result of simulateCascade. -/
structure CascadeResult where
  months : ℕ
  interest : ℚ
  balances : List ℚ
  m1Balances : List ℚ
  m2Balances : List ℚ
  yearly : List YearlySummary
  attribution : Attribution
deriving DecidableEq

/-- Initial loop state of simulateCascade for a pair of mortgages. -/
def cascInit (m1 m2 : Mortgage) : CascSt :=
  { b1 := m1.balance
    b2 := m2.balance
    months := 0
    interestTotal := 0
    yearInterest := 0
    yearExtra := 0
    yearExtraToM1 := 0
    yearExtraToM2 := 0
    yearFromM1 := 0
    yearFromM2 := 0
    m1ExtraPaidToM1 := 0
    m1ExtraPaidToM2 := 0
    m2ExtraPaidToM1 := 0
    m2ExtraPaidToM2 := 0
    balances := [roundMoney (m1.balance + m2.balance)]
    m1Balances := [roundMoney m1.balance]
    m2Balances := [roundMoney m2.balance]
    yearly := [] }

/-- simulateCascade from engine.js. -/
def simulateCascade (m1 m2 : Mortgage) (extra1 extra2 : ℚ)
    (redirectScheduled redirectExtra : Bool) (strategy : Strategy) :
    Except String CascadeResult :=
  let cfg : CascCfg :=
    { m1 := m1, m2 := m2, extra1 := extra1, extra2 := extra2
      redirectScheduled := redirectScheduled, redirectExtra := redirectExtra
      strategy := strategy }
  let out := cascGo cfg MAX_MONTHS (cascInit m1 m2)
  if out.months = MAX_MONTHS then Except.error "Cascade exceeded safety cap."
  else Except.ok
    { months := out.months
      interest := roundMoney out.interestTotal
      balances := out.balances.reverse
      m1Balances := out.m1Balances.reverse
      m2Balances := out.m2Balances.reverse
      yearly := out.yearly.reverse
      attribution :=
        { m1ExtraPaidToM1 := roundMoney out.m1ExtraPaidToM1
          m1ExtraPaidToM2 := roundMoney out.m1ExtraPaidToM2
          m2ExtraPaidToM1 := roundMoney out.m2ExtraPaidToM1
          m2ExtraPaidToM2 := roundMoney out.m2ExtraPaidToM2 } }

/-- The ComparisonResult returned by the engine entry point. -/
structure ComparisonResult where
  baseline : BaselineResult
  cascade : CascadeResult
  monthsSaved : ℤ
  interestSaved : ℚ
  scheduled1 : ℚ
  scheduled2 : ℚ
deriving DecidableEq

/-- calculateCascade from engine.js, the engine entry point: normalise,
run baseline and cascade, apply the savings noise filters, and assemble
the comparison result. -/
def calculateCascade (m1raw m2raw : RawMortgage) (extra1 extra2 : ℚ)
    (redirectScheduled redirectExtra : Bool) (strategy : Strategy) :
    Except String ComparisonResult := do
  let m1 := normaliseMortgage m1raw
  let m2 := normaliseMortgage m2raw
  let e1 := normaliseExtra extra1
  let e2 := normaliseExtra extra2
  let baseline ← simulateBaseline m1 m2 e1 e2
  let cascade ← simulateCascade m1 m2 e1 e2 redirectScheduled redirectExtra strategy
  let rawMonthsSaved : ℤ := (baseline.months : ℤ) - (cascade.months : ℤ)
  let rawInterestSaved := roundMoney (baseline.interest - cascade.interest)
  let monthsSaved : ℤ := if |rawMonthsSaved| ≤ 1 then 0 else max 0 rawMonthsSaved
  let interestSaved : ℚ := if |rawInterestSaved| < 1 / 2 then 0 else max 0 rawInterestSaved
  return { baseline := baseline
           cascade := cascade
           monthsSaved := monthsSaved
           interestSaved := interestSaved
           scheduled1 := computeScheduledPayment m1
           scheduled2 := computeScheduledPayment m2 }

/-! ## Evaluation helpers

Bool-valued checks over the Except-valued engine results.  A check is
true only when the computation returned normally and the predicate holds
of the returned result, so proving a check true also proves the run did
not hit the safety cap. -/

/-- Check a predicate against a ComparisonResult, false on error. -/
def compareCheck (p : ComparisonResult → Bool) : Except String ComparisonResult → Bool
  | Except.ok res => p res
  | Except.error _ => false

/-- Check a predicate against a CascadeResult, false on error. -/
def cascadeCheck (p : CascadeResult → Bool) : Except String CascadeResult → Bool
  | Except.ok res => p res
  | Except.error _ => false

/-- Total contributions (fromM1 + fromM2) summed over a run's yearly rows. -/
def yearlyFromTotal (res : CascadeResult) : ℚ :=
  (res.yearly.map (fun y : YearlySummary => y.fromM1 + y.fromM2)).sum

/-- Total applied extra (extraToM1 + extraToM2) summed over a run's yearly rows. -/
def yearlyToTotal (res : CascadeResult) : ℚ :=
  (res.yearly.map (fun y : YearlySummary => y.extraToM1 + y.extraToM2)).sum

section EvaluationTheorems

set_option maxRecDepth 1000000

attribute [local semireducible] Rat.mul Rat.inv Rat.add Rat.sub

/-- C1, counterexample.  With extraA = extraB = 0 and the default
toggles, the engine does not reproduce the baseline: redirectScheduled
pools the first mortgage's freed scheduled payment after its payoff, so
for A = (100, 0%, 2 months) and B = (1200, 0%, 24 months) the baseline
takes 24 months, the cascade only 13, and monthsSaved = 11, not 0. -/
theorem zero_extra_default_toggles_differs_from_baseline :
    compareCheck (fun res => decide (res.monthsSaved = 11 ∧ res.baseline.months = 24 ∧
        res.cascade.months = 13))
      (calculateCascade ⟨100, 0, 2⟩ ⟨1200, 0, 24⟩ 0 0 true true Strategy.avalanche) = true := by
  decide

/-- C2, counterexample.  For A = (100, 0%, 2 months), B = (1000, 0%,
100 months), no voluntary extras and redirectScheduled on, the freed
scheduled payment of A (50) is recorded in full as a contribution in
B's final month even though only the capped 20 is applied, so the run's
summed contributions exceed the summed applied extras by 30 > 1.00. -/
theorem conservation_fails_when_capped_pool_attributed_in_full :
    compareCheck (fun res => decide (yearlyFromTotal res.cascade = 850 ∧
        yearlyToTotal res.cascade = 820))
      (calculateCascade ⟨100, 0, 2⟩ ⟨1000, 0, 100⟩ 0 0 true true Strategy.avalanche) = true := by
  decide

/-- C3, counterexample.  Under the snowball strategy with both redirect
toggles off, pooling A's and B's extras against the small loan A wastes
the surplus of the pool in A's final month, and the cascade pays 190.95
more interest than the baseline: for A = (500, 0%, 50 months),
B = (10000, 25%, 60 months), extraA = 0, extraB = 1000 the baseline
total interest is 1020.31 but the cascade's is 1211.26. -/
theorem cascade_interest_exceeds_baseline_example :
    compareCheck (fun res => decide (res.baseline.interest + 1 / 100 < res.cascade.interest))
      (calculateCascade ⟨500, 0, 50⟩ ⟨10000, 25, 60⟩ 0 1000 false false Strategy.snowball) =
      true := by
  decide

/-- C3, amended.  The cascade-never-worse bound does hold on a
representative pooled-overpayment configuration with the default
toggles and the avalanche strategy (a one-tenth-scale, five-year
variant of the spec's reference scenario): balances 20000 and 15000 at
5% and 3% over 60 months with extras 500 and 300. -/
theorem cascade_not_worse_reference_configuration :
    compareCheck (fun res => decide (res.cascade.interest ≤ res.baseline.interest + 1 / 100 ∧
        res.cascade.months ≤ res.baseline.months))
      (calculateCascade ⟨20000, 5, 60⟩ ⟨15000, 3, 60⟩ 500 300 true true Strategy.avalanche) =
      true := by
  decide

/-- C5, counterexample.  The entry point returns a normal
ComparisonResult even when the asserted invariant cascade.interest ≤
baseline.interest + tolerance is violated (by 232.92 here), instead of
failing distinctly: no invariant check exists in calculateCascade. -/
theorem entry_point_returns_normally_despite_invariant_violation :
    compareCheck (fun res => decide (res.baseline.interest + 1 / 100 < res.cascade.interest))
      (calculateCascade ⟨600, 0, 60⟩ ⟨12000, 25, 60⟩ 0 1500 false false Strategy.snowball) =
      true := by
  decide

/-- C6, counterexample.  With avalanche strategy and both loans active
at the start of month 1, the lower-rate loan B = (1000, 1%, 1 month) is
reduced by its huge scheduled payment (1000) while the higher-rate loan
A = (1000, 5%, 12 months) is only reduced by its scheduled principal
(81.44), violating the claimed reduction inequality by far more than
0.01. -/
theorem priority_reduction_claim_fails_for_short_term_loan :
    cascadeCheck (fun res =>
        let a0 := res.m1Balances.getD 0 0
        let a1 := res.m1Balances.getD 1 0
        let b0 := res.m2Balances.getD 0 0
        let b1 := res.m2Balances.getD 1 0
        decide (0 < a0 ∧ 0 < b0 ∧ a0 - a1 < (b0 - b1) - 1 / 100))
      (simulateCascade ⟨1000, 5, 12⟩ ⟨1000, 1, 1⟩ 0 0 false false Strategy.avalanche) = true := by
  decide

end EvaluationTheorems

/-! ## Cent-valued rationals and rounding lemmas -/

/-- A rational that is an exact number of cents. -/
def IsCents (q : ℚ) : Prop :=
  ∃ n : ℤ, q = (n : ℚ) / 100

theorem isCents_roundMoney (q : ℚ) : IsCents (roundMoney q) :=
  ⟨⌊q * 100 + 1 / 2⌋, rfl⟩

theorem isCents_zero : IsCents 0 :=
  ⟨0, by norm_num⟩

theorem isCents_intCast (n : ℤ) : IsCents (n : ℚ) :=
  ⟨100 * n, by push_cast; ring⟩

theorem isCents_cent : IsCents (1 / 100 : ℚ) :=
  ⟨1, by norm_num⟩

theorem IsCents.add {p q : ℚ} (hp : IsCents p) (hq : IsCents q) : IsCents (p + q) := by
  obtain ⟨a, rfl⟩ := hp
  obtain ⟨b, rfl⟩ := hq
  exact ⟨a + b, by push_cast; ring⟩

theorem IsCents.sub {p q : ℚ} (hp : IsCents p) (hq : IsCents q) : IsCents (p - q) := by
  obtain ⟨a, rfl⟩ := hp
  obtain ⟨b, rfl⟩ := hq
  exact ⟨a - b, by push_cast; ring⟩

theorem IsCents.neg {p : ℚ} (hp : IsCents p) : IsCents (-p) := by
  obtain ⟨a, rfl⟩ := hp
  exact ⟨-a, by push_cast; ring⟩

theorem IsCents.min {p q : ℚ} (hp : IsCents p) (hq : IsCents q) : IsCents (min p q) := by
  rcases le_total p q with h | h
  · rwa [min_eq_left h]
  · rwa [min_eq_right h]

theorem IsCents.max {p q : ℚ} (hp : IsCents p) (hq : IsCents q) : IsCents (max p q) := by
  rcases le_total p q with h | h
  · rwa [max_eq_right h]
  · rwa [max_eq_left h]

theorem IsCents.roundMoney_eq {q : ℚ} (hq : IsCents q) : roundMoney q = q := by
  obtain ⟨n, rfl⟩ := hq
  rw [roundMoney, div_mul_cancel₀ (h := by norm_num)]
  rw [Int.floor_int_add]
  norm_num

theorem roundMoney_mono {p q : ℚ} (h : p ≤ q) : roundMoney p ≤ roundMoney q := by
  have : (⌊p * 100 + 1 / 2⌋ : ℤ) ≤ ⌊q * 100 + 1 / 2⌋ := by
    apply Int.floor_le_floor
    have := mul_le_mul_of_nonneg_right h (by norm_num : (0:ℚ) ≤ 100)
    linarith
  rw [roundMoney, roundMoney, div_le_div_iff_of_pos_right (c := (100:ℚ)) (by norm_num)]
  exact_mod_cast this

theorem roundMoney_nonneg {q : ℚ} (h : 0 ≤ q) : 0 ≤ roundMoney q := by
  rw [roundMoney]
  apply div_nonneg _ (by norm_num)
  have : (0 : ℤ) ≤ ⌊q * 100 + 1 / 2⌋ := by
    apply Int.le_floor.mpr
    push_cast
    nlinarith
  exact_mod_cast this

theorem IsCents.cent_le_of_pos {q : ℚ} (hq : IsCents q) (h : 0 < q) : 1 / 100 ≤ q := by
  obtain ⟨n, rfl⟩ := hq
  have hn : (0 : ℤ) < n := by
    by_contra hc
    push_neg at hc
    have : (n : ℚ) ≤ 0 := by exact_mod_cast hc
    nlinarith
  have : (1 : ℤ) ≤ n := hn
  have : (1 : ℚ) ≤ (n : ℚ) := by exact_mod_cast this
  linarith


/-! ## C8: the scheduled-payment guard -/

/-- Shared helper: the scheduled payment is cents, at least a penny,
and above the rounded first month of interest for positive rates. -/
theorem schedPayment_cents_pos (m : Mortgage)
    (hb : 0 ≤ m.balance) (hr : 0 ≤ m.rate) :
    IsCents (computeScheduledPayment m) ∧
    1 / 100 ≤ computeScheduledPayment m ∧
    (0 < m.rate →
      roundMoney (m.balance * (m.rate / 100 / 12)) < computeScheduledPayment m) := by
  have hfi : 0 ≤ roundMoney (m.balance * (m.rate / 100 / 12)) :=
    roundMoney_nonneg (by positivity)
  have hfic : IsCents (roundMoney (m.balance * (m.rate / 100 / 12))) := isCents_roundMoney _
  simp only [computeScheduledPayment]
  set s0 := roundMoney (monthlyPayment m.balance m.rate m.months) with hs0def
  set s1 := if s0 < 1 / 100 then 1 / 100 else s0 with hs1def
  set fI := roundMoney (m.balance * (m.rate / 100 / 12)) with hfIdef
  have hs1c : IsCents s1 := by
    rw [hs1def]
    split_ifs
    · exact ⟨1, rfl⟩
    · exact isCents_roundMoney _
  have hs1p : 1 / 100 ≤ s1 := by
    rw [hs1def]
    split_ifs with h
    · exact le_refl _
    · exact not_lt.mp h
  by_cases hrpos : 0 < m.rate
  · simp only [if_pos hrpos]
    by_cases hle : s1 ≤ fI
    · simp only [if_pos hle]
      rw [(hfic.add isCents_cent).roundMoney_eq]
      exact ⟨hfic.add isCents_cent, by linarith, fun _ => by linarith⟩
    · simp only [if_neg hle]
      exact ⟨hs1c, hs1p, fun _ => lt_of_not_le hle⟩
  · simp only [if_neg hrpos]
    exact ⟨hs1c, hs1p, fun hpos => absurd hpos hrpos⟩

/-- C8.  For any mortgage with non-negative balance and rate, the
computed scheduled payment is an exact number of cents, is at least one
penny, and whenever the rate is positive it strictly exceeds the
rounded first month of interest, so the first month amortises strictly. -/
theorem computeScheduledPayment_guarded (m : Mortgage)
    (hb : 0 ≤ m.balance) (hr : 0 ≤ m.rate) :
    IsCents (computeScheduledPayment m) ∧
    1 / 100 ≤ computeScheduledPayment m ∧
    (0 < m.rate →
      roundMoney (m.balance * (m.rate / 100 / 12)) < computeScheduledPayment m) :=
  schedPayment_cents_pos m hb hr

/-- C8, witness at the mortgage (1000, 12%, 1 month). -/
theorem computeScheduledPayment_guarded_witness :
    IsCents (computeScheduledPayment ⟨1000, 12, 1⟩) ∧
    1 / 100 ≤ computeScheduledPayment ⟨1000, 12, 1⟩ ∧
    (0 < (⟨1000, 12, 1⟩ : Mortgage).rate →
      roundMoney ((⟨1000, 12, 1⟩ : Mortgage).balance *
        ((⟨1000, 12, 1⟩ : Mortgage).rate / 100 / 12)) <
        computeScheduledPayment ⟨1000, 12, 1⟩) :=
  computeScheduledPayment_guarded ⟨1000, 12, 1⟩ (by norm_num) (by norm_num)

/-! ## The entry point: savings filters and absence of invariant checks -/

deriving instance DecidableEq for Except

/-- Fallback-extraction of an Except value, used to name concrete
results in witnesses. -/
def okOr (d : α) : Except ε α → α
  | Except.ok a => a
  | Except.error _ => d

/-- Placeholder SingleResult for okOr. -/
def dummySingle : SingleResult := { months := 0, interest := 0, balances := [] }

/-- Placeholder BaselineResult for okOr. -/
def dummyBaseline : BaselineResult :=
  { months := 0, interest := 0, balances := [], m1 := dummySingle, m2 := dummySingle }

/-- Placeholder CascadeResult for okOr. -/
def dummyCascade : CascadeResult :=
  { months := 0, interest := 0, balances := [], m1Balances := [], m2Balances := []
    yearly := [], attribution := ⟨0, 0, 0, 0⟩ }

/-- Placeholder ComparisonResult for okOr. -/
def dummyComparison : ComparisonResult :=
  { baseline := dummyBaseline, cascade := dummyCascade, monthsSaved := 0
    interestSaved := 0, scheduled1 := 0, scheduled2 := 0 }

/-- Unfolding of the entry point: when both simulations return, the
entry point returns the assembled comparison with the noise-filtered
savings, with no further checks between the simulations and the
return. -/
theorem calculateCascade_eq_ok (m1 m2 : RawMortgage) (e1 e2 : ℚ)
    (rS rE : Bool) (strat : Strategy) (bres : BaselineResult) (cres : CascadeResult)
    (hb : simulateBaseline (normaliseMortgage m1) (normaliseMortgage m2)
      (normaliseExtra e1) (normaliseExtra e2) = Except.ok bres)
    (hc : simulateCascade (normaliseMortgage m1) (normaliseMortgage m2)
      (normaliseExtra e1) (normaliseExtra e2) rS rE strat = Except.ok cres) :
    calculateCascade m1 m2 e1 e2 rS rE strat = Except.ok
      { baseline := bres
        cascade := cres
        monthsSaved := if |(bres.months : ℤ) - (cres.months : ℤ)| ≤ 1 then 0
          else max 0 ((bres.months : ℤ) - (cres.months : ℤ))
        interestSaved := if |roundMoney (bres.interest - cres.interest)| < 1 / 2 then 0
          else max 0 (roundMoney (bres.interest - cres.interest))
        scheduled1 := computeScheduledPayment (normaliseMortgage m1)
        scheduled2 := computeScheduledPayment (normaliseMortgage m2) } := by
  rw [calculateCascade, bind, Except.instMonad]
  simp only [Except.bind, hb, hc]
  rfl

/-- Inversion of the entry point: a normal return comes from two normal
simulation runs and carries exactly the assembled fields. -/
theorem calculateCascade_ok_elim (m1 m2 : RawMortgage) (e1 e2 : ℚ)
    (rS rE : Bool) (strat : Strategy) (res : ComparisonResult)
    (h : calculateCascade m1 m2 e1 e2 rS rE strat = Except.ok res) :
    ∃ bres cres,
      simulateBaseline (normaliseMortgage m1) (normaliseMortgage m2)
        (normaliseExtra e1) (normaliseExtra e2) = Except.ok bres ∧
      simulateCascade (normaliseMortgage m1) (normaliseMortgage m2)
        (normaliseExtra e1) (normaliseExtra e2) rS rE strat = Except.ok cres ∧
      res = { baseline := bres
              cascade := cres
              monthsSaved := if |(bres.months : ℤ) - (cres.months : ℤ)| ≤ 1 then 0
                else max 0 ((bres.months : ℤ) - (cres.months : ℤ))
              interestSaved := if |roundMoney (bres.interest - cres.interest)| < 1 / 2 then 0
                else max 0 (roundMoney (bres.interest - cres.interest))
              scheduled1 := computeScheduledPayment (normaliseMortgage m1)
              scheduled2 := computeScheduledPayment (normaliseMortgage m2) } := by
  rcases hb : simulateBaseline (normaliseMortgage m1) (normaliseMortgage m2)
      (normaliseExtra e1) (normaliseExtra e2) with e | bres
  · rw [calculateCascade, bind, Except.instMonad] at h
    simp only [Except.bind, hb] at h
    exact Except.noConfusion h
  · rcases hc : simulateCascade (normaliseMortgage m1) (normaliseMortgage m2)
        (normaliseExtra e1) (normaliseExtra e2) rS rE strat with e | cres
    · rw [calculateCascade, bind, Except.instMonad] at h
      simp only [Except.bind, hb, hc] at h
      exact Except.noConfusion h
    · have hk := calculateCascade_eq_ok m1 m2 e1 e2 rS rE strat bres cres hb hc
      rw [hk] at h
      exact ⟨bres, cres, rfl, rfl, (Except.ok.inj h).symm⟩

/-- C9.  The returned savings fields satisfy the noise filters exactly:
monthsSaved is 0 when the month difference is within 1 and otherwise
max 0 of it; interestSaved is 0 when the rounded interest difference is
below 0.50 and otherwise max 0 of it; both are non-negative. -/
theorem calculateCascade_savings_filters (m1 m2 : RawMortgage) (e1 e2 : ℚ)
    (rS rE : Bool) (strat : Strategy) (res : ComparisonResult)
    (h : calculateCascade m1 m2 e1 e2 rS rE strat = Except.ok res) :
    res.monthsSaved = (if |(res.baseline.months : ℤ) - (res.cascade.months : ℤ)| ≤ 1 then 0
      else max 0 ((res.baseline.months : ℤ) - (res.cascade.months : ℤ))) ∧
    res.interestSaved =
      (if |roundMoney (res.baseline.interest - res.cascade.interest)| < 1 / 2 then 0
       else max 0 (roundMoney (res.baseline.interest - res.cascade.interest))) ∧
    0 ≤ res.monthsSaved ∧ 0 ≤ res.interestSaved := by
  obtain ⟨bres, cres, -, -, rfl⟩ := calculateCascade_ok_elim m1 m2 e1 e2 rS rE strat res h
  refine ⟨rfl, rfl, ?_, ?_⟩
  · dsimp only
    split_ifs
    · exact le_refl 0
    · exact le_max_left 0 _
  · dsimp only
    split_ifs
    · exact le_refl 0
    · exact le_max_left 0 _

section WitnessEvaluation

set_option maxRecDepth 1000000

attribute [local semireducible] Rat.mul Rat.inv Rat.add Rat.sub

/-- C9, witness: the savings filters hold of the result computed for
A = (100, 0%, 2 months), B = (1200, 0%, 24 months) with no extras. -/
theorem calculateCascade_savings_filters_witness :
    (okOr dummyComparison
        (calculateCascade ⟨100, 0, 2⟩ ⟨1200, 0, 24⟩ 0 0 true true Strategy.avalanche)).monthsSaved =
      (if |((okOr dummyComparison
          (calculateCascade ⟨100, 0, 2⟩ ⟨1200, 0, 24⟩ 0 0 true true
            Strategy.avalanche)).baseline.months : ℤ) -
          ((okOr dummyComparison
          (calculateCascade ⟨100, 0, 2⟩ ⟨1200, 0, 24⟩ 0 0 true true
            Strategy.avalanche)).cascade.months : ℤ)| ≤ 1 then 0
       else max 0 (((okOr dummyComparison
          (calculateCascade ⟨100, 0, 2⟩ ⟨1200, 0, 24⟩ 0 0 true true
            Strategy.avalanche)).baseline.months : ℤ) -
          ((okOr dummyComparison
          (calculateCascade ⟨100, 0, 2⟩ ⟨1200, 0, 24⟩ 0 0 true true
            Strategy.avalanche)).cascade.months : ℤ))) ∧
    (okOr dummyComparison
        (calculateCascade ⟨100, 0, 2⟩ ⟨1200, 0, 24⟩ 0 0 true true
          Strategy.avalanche)).interestSaved =
      (if |roundMoney ((okOr dummyComparison
          (calculateCascade ⟨100, 0, 2⟩ ⟨1200, 0, 24⟩ 0 0 true true
            Strategy.avalanche)).baseline.interest -
          (okOr dummyComparison
          (calculateCascade ⟨100, 0, 2⟩ ⟨1200, 0, 24⟩ 0 0 true true
            Strategy.avalanche)).cascade.interest)| < 1 / 2 then 0
       else max 0 (roundMoney ((okOr dummyComparison
          (calculateCascade ⟨100, 0, 2⟩ ⟨1200, 0, 24⟩ 0 0 true true
            Strategy.avalanche)).baseline.interest -
          (okOr dummyComparison
          (calculateCascade ⟨100, 0, 2⟩ ⟨1200, 0, 24⟩ 0 0 true true
            Strategy.avalanche)).cascade.interest))) ∧
    0 ≤ (okOr dummyComparison
        (calculateCascade ⟨100, 0, 2⟩ ⟨1200, 0, 24⟩ 0 0 true true
          Strategy.avalanche)).monthsSaved ∧
    0 ≤ (okOr dummyComparison
        (calculateCascade ⟨100, 0, 2⟩ ⟨1200, 0, 24⟩ 0 0 true true
          Strategy.avalanche)).interestSaved := by
  apply calculateCascade_savings_filters ⟨100, 0, 2⟩ ⟨1200, 0, 24⟩ 0 0 true true Strategy.avalanche
  decide

end WitnessEvaluation

/-- C5, amended.  The entry point performs no invariant checks before
returning: whenever both simulations return normally it returns the
assembled ComparisonResult unconditionally (the counterexample theorem
shows this happens even when cascade interest exceeds baseline interest
beyond the tolerance), and its only failure mode is a safety-cap error
propagated from a simulation. -/
theorem calculateCascade_returns_without_invariant_checks (m1 m2 : RawMortgage)
    (e1 e2 : ℚ) (rS rE : Bool) (strat : Strategy)
    (bres : BaselineResult) (cres : CascadeResult)
    (hb : simulateBaseline (normaliseMortgage m1) (normaliseMortgage m2)
      (normaliseExtra e1) (normaliseExtra e2) = Except.ok bres)
    (hc : simulateCascade (normaliseMortgage m1) (normaliseMortgage m2)
      (normaliseExtra e1) (normaliseExtra e2) rS rE strat = Except.ok cres) :
    calculateCascade m1 m2 e1 e2 rS rE strat = Except.ok
      { baseline := bres
        cascade := cres
        monthsSaved := if |(bres.months : ℤ) - (cres.months : ℤ)| ≤ 1 then 0
          else max 0 ((bres.months : ℤ) - (cres.months : ℤ))
        interestSaved := if |roundMoney (bres.interest - cres.interest)| < 1 / 2 then 0
          else max 0 (roundMoney (bres.interest - cres.interest))
        scheduled1 := computeScheduledPayment (normaliseMortgage m1)
        scheduled2 := computeScheduledPayment (normaliseMortgage m2) } :=
  calculateCascade_eq_ok m1 m2 e1 e2 rS rE strat bres cres hb hc

section WitnessEvaluationTwo

set_option maxRecDepth 1000000

attribute [local semireducible] Rat.mul Rat.inv Rat.add Rat.sub

/-- C5 amended, witness: for A = (100, 0%, 2 months), B = (1200, 0%,
24 months) with no extras, both simulations return and the entry point
returns the assembled result. -/
theorem calculateCascade_returns_without_invariant_checks_witness :
    calculateCascade ⟨100, 0, 2⟩ ⟨1200, 0, 24⟩ 0 0 false true Strategy.snowball = Except.ok
      { baseline := okOr dummyBaseline
          (simulateBaseline (normaliseMortgage ⟨100, 0, 2⟩) (normaliseMortgage ⟨1200, 0, 24⟩)
            (normaliseExtra 0) (normaliseExtra 0))
        cascade := okOr dummyCascade
          (simulateCascade (normaliseMortgage ⟨100, 0, 2⟩) (normaliseMortgage ⟨1200, 0, 24⟩)
            (normaliseExtra 0) (normaliseExtra 0) false true Strategy.snowball)
        monthsSaved := if |((okOr dummyBaseline
            (simulateBaseline (normaliseMortgage ⟨100, 0, 2⟩) (normaliseMortgage ⟨1200, 0, 24⟩)
              (normaliseExtra 0) (normaliseExtra 0))).months : ℤ) -
            ((okOr dummyCascade
            (simulateCascade (normaliseMortgage ⟨100, 0, 2⟩) (normaliseMortgage ⟨1200, 0, 24⟩)
              (normaliseExtra 0) (normaliseExtra 0) false true Strategy.snowball)).months : ℤ)| ≤ 1
          then 0
          else max 0 (((okOr dummyBaseline
            (simulateBaseline (normaliseMortgage ⟨100, 0, 2⟩) (normaliseMortgage ⟨1200, 0, 24⟩)
              (normaliseExtra 0) (normaliseExtra 0))).months : ℤ) -
            ((okOr dummyCascade
            (simulateCascade (normaliseMortgage ⟨100, 0, 2⟩) (normaliseMortgage ⟨1200, 0, 24⟩)
              (normaliseExtra 0) (normaliseExtra 0) false true Strategy.snowball)).months : ℤ))
        interestSaved := if |roundMoney ((okOr dummyBaseline
            (simulateBaseline (normaliseMortgage ⟨100, 0, 2⟩) (normaliseMortgage ⟨1200, 0, 24⟩)
              (normaliseExtra 0) (normaliseExtra 0))).interest -
            (okOr dummyCascade
            (simulateCascade (normaliseMortgage ⟨100, 0, 2⟩) (normaliseMortgage ⟨1200, 0, 24⟩)
              (normaliseExtra 0) (normaliseExtra 0) false true Strategy.snowball)).interest)| < 1 / 2
          then 0
          else max 0 (roundMoney ((okOr dummyBaseline
            (simulateBaseline (normaliseMortgage ⟨100, 0, 2⟩) (normaliseMortgage ⟨1200, 0, 24⟩)
              (normaliseExtra 0) (normaliseExtra 0))).interest -
            (okOr dummyCascade
            (simulateCascade (normaliseMortgage ⟨100, 0, 2⟩) (normaliseMortgage ⟨1200, 0, 24⟩)
              (normaliseExtra 0) (normaliseExtra 0) false true Strategy.snowball)).interest))
        scheduled1 := computeScheduledPayment (normaliseMortgage ⟨100, 0, 2⟩)
        scheduled2 := computeScheduledPayment (normaliseMortgage ⟨1200, 0, 24⟩) } := by
  apply calculateCascade_returns_without_invariant_checks
  · decide
  · decide

end WitnessEvaluationTwo

/-! ## Further rounding lemmas -/

theorem roundMoney_zero : roundMoney 0 = 0 :=
  isCents_zero.roundMoney_eq

theorem roundMoney_idem (q : ℚ) : roundMoney (roundMoney q) = roundMoney q :=
  (isCents_roundMoney q).roundMoney_eq

theorem IsCents.eq_zero_of_lt_cent {q : ℚ} (hq : IsCents q) (h0 : 0 ≤ q)
    (h : q < 1 / 100) : q = 0 := by
  by_contra hne
  have := hq.cent_le_of_pos (lt_of_le_of_ne h0 (Ne.symm hne))
  linarith

theorem roundMoney_nonpos {q : ℚ} (h : q ≤ 0) : roundMoney q ≤ 0 := by
  have := roundMoney_mono h
  rwa [roundMoney_zero] at this

/-! ## C6 amended: avalanche allocation targets the higher-rate loan -/

/-! ## Stage lemmas for the cascade month -/

theorem cascAccrue_b1 (cfg : CascCfg) (st : CascSt) :
    (cascAccrue cfg st).b1 = postSched st.b1 cfg.sched1 cfg.r1 := rfl

theorem cascAccrue_b2 (cfg : CascCfg) (st : CascSt) :
    (cascAccrue cfg st).b2 = postSched st.b2 cfg.sched2 cfg.r2 := rfl

theorem cascAccrue_months (cfg : CascCfg) (st : CascSt) :
    (cascAccrue cfg st).months = st.months + 1 := rfl

theorem cascSnapRecord_b1 (st : CascSt) :
    (cascSnapRecord st).b1 =
      if roundMoney st.b1 < 1 / 100 then 0 else roundMoney st.b1 := rfl

theorem cascSnapRecord_b2 (st : CascSt) :
    (cascSnapRecord st).b2 =
      if roundMoney st.b2 < 1 / 100 then 0 else roundMoney st.b2 := rfl

theorem cascYearEnd_b1 (st : CascSt) : (cascYearEnd st).b1 = st.b1 := by
  rw [cascYearEnd]
  split_ifs <;> rfl

theorem cascYearEnd_b2 (st : CascSt) : (cascYearEnd st).b2 = st.b2 := by
  rw [cascYearEnd]
  split_ifs <;> rfl

theorem cascYearEnd_eq_of_no_boundary {st : CascSt}
    (h : ¬ (st.months % 12 = 0 ∨ (st.b1 ≤ 0 ∧ st.b2 ≤ 0))) : cascYearEnd st = st := by
  rw [cascYearEnd, if_neg h]

theorem cascFrom_both (cfg : CascCfg) {b1 b2 : ℚ} (h1 : 0 < b1) (h2 : 0 < b2) :
    cascFrom cfg b1 b2 = (cfg.extra1, cfg.extra2) := by
  rw [cascFrom, if_pos ⟨h1, h2⟩]

theorem postSched_cents (b sched r : ℚ) : IsCents (postSched b sched r) := by
  rw [postSched]
  exact isCents_roundMoney _

theorem roundMoney_postSched (b sched r : ℚ) :
    roundMoney (postSched b sched r) = postSched b sched r :=
  (postSched_cents b sched r).roundMoney_eq

/-- Avalanche allocation with the first loan's rate at least the
second's: the pool is applied to the first loan only. -/
theorem cascAllocate_avalanche_m1 (cfg : CascCfg) (st : CascSt)
    (hstrat : cfg.strategy = Strategy.avalanche)
    (hrate : cfg.m2.rate ≤ cfg.m1.rate)
    (h1 : 0 < st.b1) (h2 : 0 < st.b2) :
    (cascAllocate cfg st).b2 = st.b2 ∧
    (cascAllocate cfg st).b1 =
      roundMoney (st.b1 - min (cfg.extra1 + cfg.extra2) st.b1) := by
  simp only [cascAllocate, cascFrom_both cfg h1 h2, hstrat, if_pos (And.intro h1 h2),
    decide_eq_true hrate, if_true]
  constructor
  · simp only [apply_ite CascSt.b2, ite_self]
  · simp only [apply_ite CascSt.b1, ite_self]

set_option maxHeartbeats 1000000 in
/-- C6, amended.  What the avalanche strategy does guarantee is about
the pool allocation, not about total monthly reduction: in any month in
which both loans are still active after their scheduled payments, and
the first loan's rate is at least the second's (ties favour loan A),
the entire pooled extra is applied to the first (higher-rate) loan: the
second loan ends the month exactly at its post-scheduled-payment
balance, and the first is further reduced by the pool capped at its
remaining balance. -/
theorem cascMonth_avalanche_pool_to_higher_rate (cfg : CascCfg) (st : CascSt)
    (hstrat : cfg.strategy = Strategy.avalanche)
    (hrate : cfg.m2.rate ≤ cfg.m1.rate)
    (hb1 : 0 < postSched st.b1 cfg.sched1 cfg.r1)
    (hb2 : 0 < postSched st.b2 cfg.sched2 cfg.r2) :
    (cascMonth cfg st).b2 = postSched st.b2 cfg.sched2 cfg.r2 ∧
    (cascMonth cfg st).b1 = roundMoney (postSched st.b1 cfg.sched1 cfg.r1 -
      min (cfg.extra1 + cfg.extra2) (postSched st.b1 cfg.sched1 cfg.r1)) := by
  have h1 : 0 < (cascAccrue cfg st).b1 := by
    rw [cascAccrue_b1]
    exact hb1
  have h2 : 0 < (cascAccrue cfg st).b2 := by
    rw [cascAccrue_b2]
    exact hb2
  obtain ⟨ha2, ha1⟩ := cascAllocate_avalanche_m1 cfg (cascAccrue cfg st) hstrat hrate h1 h2
  rw [cascAccrue_b1] at ha1
  rw [cascAccrue_b2] at ha2
  constructor
  · rw [cascMonth, cascYearEnd_b2, cascSnapRecord_b2, ha2, roundMoney_postSched,
      if_neg (not_lt.mpr ((postSched_cents st.b2 cfg.sched2 cfg.r2).cent_le_of_pos hb2))]
  · rw [cascMonth, cascYearEnd_b1, cascSnapRecord_b1, ha1, roundMoney_idem]
    have hrem : 0 ≤ postSched st.b1 cfg.sched1 cfg.r1 -
        min (cfg.extra1 + cfg.extra2) (postSched st.b1 cfg.sched1 cfg.r1) := by
      have := min_le_right (cfg.extra1 + cfg.extra2) (postSched st.b1 cfg.sched1 cfg.r1)
      linarith
    by_cases hz : roundMoney (postSched st.b1 cfg.sched1 cfg.r1 -
        min (cfg.extra1 + cfg.extra2) (postSched st.b1 cfg.sched1 cfg.r1)) < 1 / 100
    · rw [if_pos hz]
      exact ((isCents_roundMoney _).eq_zero_of_lt_cent (roundMoney_nonneg hrem) hz).symm
    · rw [if_neg hz]

section WitnessEvaluationThree

set_option maxRecDepth 1000000

attribute [local semireducible] Rat.mul Rat.inv Rat.add Rat.sub

/-- C6 amended, witness: first month of a run with loans (50000, 5%,
120 months) and (40000, 3%, 120 months) and extras 100 and 200. -/
theorem cascMonth_avalanche_pool_to_higher_rate_witness :
    (cascMonth ⟨⟨50000, 5, 120⟩, ⟨40000, 3, 120⟩, 100, 200, true, true, Strategy.avalanche⟩
        (cascInit ⟨50000, 5, 120⟩ ⟨40000, 3, 120⟩)).b2 =
      postSched (cascInit ⟨50000, 5, 120⟩ ⟨40000, 3, 120⟩).b2
        (CascCfg.sched2 ⟨⟨50000, 5, 120⟩, ⟨40000, 3, 120⟩, 100, 200, true, true,
          Strategy.avalanche⟩)
        (CascCfg.r2 ⟨⟨50000, 5, 120⟩, ⟨40000, 3, 120⟩, 100, 200, true, true,
          Strategy.avalanche⟩) ∧
    (cascMonth ⟨⟨50000, 5, 120⟩, ⟨40000, 3, 120⟩, 100, 200, true, true, Strategy.avalanche⟩
        (cascInit ⟨50000, 5, 120⟩ ⟨40000, 3, 120⟩)).b1 =
      roundMoney (postSched (cascInit ⟨50000, 5, 120⟩ ⟨40000, 3, 120⟩).b1
        (CascCfg.sched1 ⟨⟨50000, 5, 120⟩, ⟨40000, 3, 120⟩, 100, 200, true, true,
          Strategy.avalanche⟩)
        (CascCfg.r1 ⟨⟨50000, 5, 120⟩, ⟨40000, 3, 120⟩, 100, 200, true, true,
          Strategy.avalanche⟩) -
        min ((⟨⟨50000, 5, 120⟩, ⟨40000, 3, 120⟩, 100, 200, true, true,
            Strategy.avalanche⟩ : CascCfg).extra1 +
          (⟨⟨50000, 5, 120⟩, ⟨40000, 3, 120⟩, 100, 200, true, true,
            Strategy.avalanche⟩ : CascCfg).extra2)
          (postSched (cascInit ⟨50000, 5, 120⟩ ⟨40000, 3, 120⟩).b1
            (CascCfg.sched1 ⟨⟨50000, 5, 120⟩, ⟨40000, 3, 120⟩, 100, 200, true, true,
              Strategy.avalanche⟩)
            (CascCfg.r1 ⟨⟨50000, 5, 120⟩, ⟨40000, 3, 120⟩, 100, 200, true, true,
              Strategy.avalanche⟩))) :=
  cascMonth_avalanche_pool_to_higher_rate
    ⟨⟨50000, 5, 120⟩, ⟨40000, 3, 120⟩, 100, 200, true, true, Strategy.avalanche⟩
    (cascInit ⟨50000, 5, 120⟩ ⟨40000, 3, 120⟩) rfl (by norm_num) (by decide) (by decide)

end WitnessEvaluationThree

/-! ## Scheduled-principal helper lemmas -/

theorem schedPrincipal_nonneg (b sched i : ℚ) : 0 ≤ schedPrincipal b sched i :=
  le_max_left 0 _

theorem schedPrincipal_le_self {b : ℚ} (sched i : ℚ) (hb : 0 ≤ b) :
    schedPrincipal b sched i ≤ b := by
  rw [schedPrincipal]
  rcases le_total (if 0 < b then roundMoney (sched - i) else 0) b with h | h
  · rw [min_eq_left h]
    rcases lt_or_le 0 b with hb0 | hb0
    · rw [if_pos hb0] at h ⊢
      exact max_le hb (by linarith [h])
    · have : b = 0 := le_antisymm hb0 hb
      simp [this]
  · rw [min_eq_right h]
    exact max_le hb le_rfl

theorem postSched_nonneg {b : ℚ} (sched r : ℚ) (hb : 0 ≤ b) : 0 ≤ postSched b sched r :=
  roundMoney_nonneg (by linarith [schedPrincipal_le_self sched (monthInterest b r) hb])


/-! ## C2 amended: month-level contribution accounting -/

theorem cascAllocate_months (cfg : CascCfg) (st : CascSt) :
    (cascAllocate cfg st).months = st.months := by
  simp only [cascAllocate, apply_ite CascSt.months, ite_self]

theorem cascSnapRecord_months (st : CascSt) : (cascSnapRecord st).months = st.months := rfl

theorem cascAllocate_b1_of_nonpos (cfg : CascCfg) {st : CascSt} (h : st.b1 ≤ 0) :
    (cascAllocate cfg st).b1 = st.b1 := by
  have hn : ¬ (0 < st.b1 ∧ 0 < st.b2) := fun hc => absurd hc.1 (not_lt.mpr h)
  have hn1 : ¬ 0 < st.b1 := not_lt.mpr h
  rw [cascAllocate]
  simp only [if_neg hn, if_neg hn1, apply_ite CascSt.b1, ite_self]

theorem cascAllocate_b2_of_nonpos (cfg : CascCfg) {st : CascSt} (h : st.b2 ≤ 0) :
    (cascAllocate cfg st).b2 = st.b2 := by
  have hn : ¬ (0 < st.b1 ∧ 0 < st.b2) := fun hc => absurd hc.2 (not_lt.mpr h)
  have hn2 : ¬ 0 < st.b2 := not_lt.mpr h
  rw [cascAllocate]
  simp only [if_neg hn, if_neg hn2, apply_ite CascSt.b1, apply_ite CascSt.b2, ite_self]

/-- Allocation-level accounting: applied extras grow by at most the
recorded contributions, exactly when both loans were active. -/
theorem cascAllocate_delta (cfg : CascCfg) (st : CascSt)
    (he1 : 0 ≤ cfg.extra1) (he2 : 0 ≤ cfg.extra2) :
    ((cascAllocate cfg st).yearExtraToM1 + (cascAllocate cfg st).yearExtraToM2) -
      (st.yearExtraToM1 + st.yearExtraToM2) ≤
    ((cascAllocate cfg st).yearFromM1 + (cascAllocate cfg st).yearFromM2) -
      (st.yearFromM1 + st.yearFromM2) ∧
    (0 < st.b1 ∧ 0 < st.b2 →
      ((cascAllocate cfg st).yearExtraToM1 + (cascAllocate cfg st).yearExtraToM2) -
        (st.yearExtraToM1 + st.yearExtraToM2) =
      ((cascAllocate cfg st).yearFromM1 + (cascAllocate cfg st).yearFromM2) -
        (st.yearFromM1 + st.yearFromM2)) := by
  by_cases hc : 0 < st.b1 ∧ 0 < st.b2
  · have heq : ((cascAllocate cfg st).yearExtraToM1 + (cascAllocate cfg st).yearExtraToM2) -
        (st.yearExtraToM1 + st.yearExtraToM2) =
        ((cascAllocate cfg st).yearFromM1 + (cascAllocate cfg st).yearFromM2) -
        (st.yearFromM1 + st.yearFromM2) := by
      rw [cascAllocate]
      simp only [cascFrom_both cfg hc.1 hc.2, if_pos hc]
      by_cases hts : (0 : ℚ) < cfg.extra1 + cfg.extra2
      · split_ifs with htgt
        · field_simp
          ring
        · field_simp
          ring
      · have hTz : cfg.extra1 + cfg.extra2 = 0 := le_antisymm (not_lt.mp hts) (by linarith)
        have hu1 : min (cfg.extra1 + cfg.extra2) st.b1 = 0 := by
          rw [hTz]
          exact min_eq_left (le_of_lt hc.1)
        have hu2 : min (cfg.extra1 + cfg.extra2) st.b2 = 0 := by
          rw [hTz]
          exact min_eq_left (le_of_lt hc.2)
        split_ifs with htgt
        · dsimp only
          rw [hu1]
          ring
        · dsimp only
          rw [hu2]
          ring
    exact ⟨le_of_eq heq, fun _ => heq⟩
  · constructor
    · rw [cascAllocate]
      simp only [if_neg hc]
      split_ifs with hb1p hb2p
      · dsimp only
        have := min_le_left ((cascFrom cfg st.b1 st.b2).1 + (cascFrom cfg st.b1 st.b2).2) st.b1
        linarith
      · dsimp only
        have := min_le_left ((cascFrom cfg st.b1 st.b2).1 + (cascFrom cfg st.b1 st.b2).2) st.b2
        linarith
      · linarith
    · intro hcc
      exact absurd hcc hc

set_option maxHeartbeats 1000000 in
/-- C2, amended.  Month by month, outside the year-boundary reset, the
recorded contributions (yearFromM1 + yearFromM2) grow by at least as
much as the applied extras (yearExtraToM1 + yearExtraToM2), with exact
equality whenever both loans are still active at the end of the month.
When only one loan remains and the pool exceeds its remaining balance,
the code records the full pool as contributed while only the capped
amount is applied, so run-level conservation fails by the surplus in
the final month (the counterexample exceeds the claimed 1.00 tolerance
by 29). -/
theorem cascMonth_contribution_dominates_applied (cfg : CascCfg) (st : CascSt)
    (he1 : 0 ≤ cfg.extra1) (he2 : 0 ≤ cfg.extra2)
    (hb1 : 0 ≤ st.b1) (hb2 : 0 ≤ st.b2)
    (hyear : ¬ (st.months + 1) % 12 = 0)
    (halive : 0 < (cascMonth cfg st).b1 ∨ 0 < (cascMonth cfg st).b2) :
    ((cascMonth cfg st).yearExtraToM1 + (cascMonth cfg st).yearExtraToM2) -
      (st.yearExtraToM1 + st.yearExtraToM2) ≤
    ((cascMonth cfg st).yearFromM1 + (cascMonth cfg st).yearFromM2) -
      (st.yearFromM1 + st.yearFromM2) ∧
    (0 < (cascMonth cfg st).b1 ∧ 0 < (cascMonth cfg st).b2 →
      ((cascMonth cfg st).yearExtraToM1 + (cascMonth cfg st).yearExtraToM2) -
        (st.yearExtraToM1 + st.yearExtraToM2) =
      ((cascMonth cfg st).yearFromM1 + (cascMonth cfg st).yearFromM2) -
        (st.yearFromM1 + st.yearFromM2)) := by
  have hno : ¬ ((cascSnapRecord (cascAllocate cfg (cascAccrue cfg st))).months % 12 = 0 ∨
      ((cascSnapRecord (cascAllocate cfg (cascAccrue cfg st))).b1 ≤ 0 ∧
       (cascSnapRecord (cascAllocate cfg (cascAccrue cfg st))).b2 ≤ 0)) := by
    rintro (h | ⟨hz1, hz2⟩)
    · rw [cascSnapRecord_months, cascAllocate_months, cascAccrue_months] at h
      exact hyear h
    · rcases halive with ha | ha
      · rw [cascMonth, cascYearEnd_b1] at ha
        exact absurd hz1 (not_le.mpr ha)
      · rw [cascMonth, cascYearEnd_b2] at ha
        exact absurd hz2 (not_le.mpr ha)
  have hym : cascMonth cfg st = cascSnapRecord (cascAllocate cfg (cascAccrue cfg st)) := by
    rw [cascMonth, cascYearEnd_eq_of_no_boundary hno]
  have hdelta := cascAllocate_delta cfg (cascAccrue cfg st) he1 he2
  have hproj : ∀ X : CascSt, (cascSnapRecord X).yearExtraToM1 = X.yearExtraToM1 ∧
      (cascSnapRecord X).yearExtraToM2 = X.yearExtraToM2 ∧
      (cascSnapRecord X).yearFromM1 = X.yearFromM1 ∧
      (cascSnapRecord X).yearFromM2 = X.yearFromM2 := fun X => ⟨rfl, rfl, rfl, rfl⟩
  constructor
  · rw [hym]
    obtain ⟨e1, e2, f1, f2⟩ := hproj (cascAllocate cfg (cascAccrue cfg st))
    rw [e1, e2, f1, f2]
    exact hdelta.1
  · intro hpos
    rw [hym] at hpos ⊢
    obtain ⟨e1, e2, f1, f2⟩ := hproj (cascAllocate cfg (cascAccrue cfg st))
    rw [e1, e2, f1, f2]
    apply hdelta.2
    rw [cascSnapRecord_b1, cascSnapRecord_b2] at hpos
    constructor
    · by_contra hle0
      push_neg at hle0
      have hx : (cascAllocate cfg (cascAccrue cfg st)).b1 = (cascAccrue cfg st).b1 :=
        cascAllocate_b1_of_nonpos cfg hle0
      rw [hx] at hpos
      have hnp : roundMoney (cascAccrue cfg st).b1 ≤ 0 := roundMoney_nonpos hle0
      rw [if_pos (lt_of_le_of_lt hnp (by norm_num))] at hpos
      exact absurd hpos.1 (lt_irrefl 0)
    · by_contra hle0
      push_neg at hle0
      have hx : (cascAllocate cfg (cascAccrue cfg st)).b2 = (cascAccrue cfg st).b2 :=
        cascAllocate_b2_of_nonpos cfg hle0
      rw [hx] at hpos
      have hnp : roundMoney (cascAccrue cfg st).b2 ≤ 0 := roundMoney_nonpos hle0
      rw [if_pos (lt_of_le_of_lt hnp (by norm_num))] at hpos
      exact absurd hpos.2 (lt_irrefl 0)

section WitnessEvaluationFour

set_option maxRecDepth 1000000

attribute [local semireducible] Rat.mul Rat.inv Rat.add Rat.sub

/-- C2 amended, witness: first month of a run with loans (50000, 5%,
120 months) and (40000, 3%, 120 months) and extras 100 and 200. -/
theorem cascMonth_contribution_dominates_applied_witness :
    ((cascMonth ⟨⟨50000, 5, 120⟩, ⟨40000, 3, 120⟩, 100, 200, true, true, Strategy.avalanche⟩
        (cascInit ⟨50000, 5, 120⟩ ⟨40000, 3, 120⟩)).yearExtraToM1 +
      (cascMonth ⟨⟨50000, 5, 120⟩, ⟨40000, 3, 120⟩, 100, 200, true, true, Strategy.avalanche⟩
        (cascInit ⟨50000, 5, 120⟩ ⟨40000, 3, 120⟩)).yearExtraToM2) -
      ((cascInit ⟨50000, 5, 120⟩ ⟨40000, 3, 120⟩).yearExtraToM1 +
        (cascInit ⟨50000, 5, 120⟩ ⟨40000, 3, 120⟩).yearExtraToM2) ≤
    ((cascMonth ⟨⟨50000, 5, 120⟩, ⟨40000, 3, 120⟩, 100, 200, true, true, Strategy.avalanche⟩
        (cascInit ⟨50000, 5, 120⟩ ⟨40000, 3, 120⟩)).yearFromM1 +
      (cascMonth ⟨⟨50000, 5, 120⟩, ⟨40000, 3, 120⟩, 100, 200, true, true, Strategy.avalanche⟩
        (cascInit ⟨50000, 5, 120⟩ ⟨40000, 3, 120⟩)).yearFromM2) -
      ((cascInit ⟨50000, 5, 120⟩ ⟨40000, 3, 120⟩).yearFromM1 +
        (cascInit ⟨50000, 5, 120⟩ ⟨40000, 3, 120⟩).yearFromM2) ∧
    (0 < (cascMonth ⟨⟨50000, 5, 120⟩, ⟨40000, 3, 120⟩, 100, 200, true, true, Strategy.avalanche⟩
        (cascInit ⟨50000, 5, 120⟩ ⟨40000, 3, 120⟩)).b1 ∧
     0 < (cascMonth ⟨⟨50000, 5, 120⟩, ⟨40000, 3, 120⟩, 100, 200, true, true, Strategy.avalanche⟩
        (cascInit ⟨50000, 5, 120⟩ ⟨40000, 3, 120⟩)).b2 →
      ((cascMonth ⟨⟨50000, 5, 120⟩, ⟨40000, 3, 120⟩, 100, 200, true, true, Strategy.avalanche⟩
          (cascInit ⟨50000, 5, 120⟩ ⟨40000, 3, 120⟩)).yearExtraToM1 +
        (cascMonth ⟨⟨50000, 5, 120⟩, ⟨40000, 3, 120⟩, 100, 200, true, true, Strategy.avalanche⟩
          (cascInit ⟨50000, 5, 120⟩ ⟨40000, 3, 120⟩)).yearExtraToM2) -
        ((cascInit ⟨50000, 5, 120⟩ ⟨40000, 3, 120⟩).yearExtraToM1 +
          (cascInit ⟨50000, 5, 120⟩ ⟨40000, 3, 120⟩).yearExtraToM2) =
      ((cascMonth ⟨⟨50000, 5, 120⟩, ⟨40000, 3, 120⟩, 100, 200, true, true, Strategy.avalanche⟩
          (cascInit ⟨50000, 5, 120⟩ ⟨40000, 3, 120⟩)).yearFromM1 +
        (cascMonth ⟨⟨50000, 5, 120⟩, ⟨40000, 3, 120⟩, 100, 200, true, true, Strategy.avalanche⟩
          (cascInit ⟨50000, 5, 120⟩ ⟨40000, 3, 120⟩)).yearFromM2) -
        ((cascInit ⟨50000, 5, 120⟩ ⟨40000, 3, 120⟩).yearFromM1 +
          (cascInit ⟨50000, 5, 120⟩ ⟨40000, 3, 120⟩).yearFromM2)) :=
  cascMonth_contribution_dominates_applied
    ⟨⟨50000, 5, 120⟩, ⟨40000, 3, 120⟩, 100, 200, true, true, Strategy.avalanche⟩
    (cascInit ⟨50000, 5, 120⟩ ⟨40000, 3, 120⟩)
    (by norm_num) (by norm_num) (by decide) (by decide) (by decide) (Or.inl (by decide))

end WitnessEvaluationFour

/-! ## C4: the safety cap is reachable from normalised input -/

/-- If the scheduled payment is small enough that fuel * sched cannot
cover the balance, the single-loan loop runs through all its fuel (no
extra payment). -/
theorem ssGo_runs_out_of_fuel (r sched : ℚ) (hr : 0 ≤ r) (hs : 0 ≤ sched)
    (hsc : IsCents sched) :
    ∀ (fuel : ℕ) (st : SingleLoopState), IsCents st.balance →
      (fuel : ℚ) * sched < st.balance →
      (ssGo r sched 0 fuel st).months = st.months + fuel := by
  intro fuel
  induction fuel with
  | zero =>
    intro st _ _
    rfl
  | succ n ih =>
    intro st hc hlt
    have hfuel : (0 : ℚ) ≤ (n + 1 : ℕ) * sched := by positivity
    have hbal : 0 < st.balance := lt_of_le_of_lt hfuel hlt
    have hone : sched ≤ ((n + 1 : ℕ) : ℚ) * sched := by
      have h1 : (1 : ℚ) ≤ ((n + 1 : ℕ) : ℚ) := by
        push_cast
        linarith [Nat.cast_nonneg (α := ℚ) n]
      nlinarith
    have hint : 0 ≤ roundMoney (st.balance * r) := roundMoney_nonneg (by positivity)
    have hp0 : roundMoney (sched - roundMoney (st.balance * r)) ≤ sched := by
      have := roundMoney_mono (p := sched - roundMoney (st.balance * r)) (q := sched)
        (by linarith)
      rwa [hsc.roundMoney_eq] at this
    have hp0c : IsCents (roundMoney (sched - roundMoney (st.balance * r))) :=
      isCents_roundMoney _
    simp only [ssGo, if_pos hbal]
    set p0 := roundMoney (sched - roundMoney (st.balance * r)) with hp0def
    set p := if p0 < 0 then 0 else p0 with hpdef
    have hpc : IsCents p := by
      rw [hpdef]
      split_ifs
      · exact isCents_zero
      · exact hp0c
    have hple : p ≤ sched := by
      rw [hpdef]
      split_ifs
      · exact hs
      · exact hp0
    have hpnn : 0 ≤ p := by
      rw [hpdef]
      split_ifs with h
      · exact le_refl 0
      · exact not_lt.mp h
    have htp : roundMoney (p + 0) = p := by
      rw [add_zero]
      exact hpc.roundMoney_eq
    rw [htp]
    have hnotpay : ¬ st.balance ≤ p := by
      push_neg
      calc p ≤ sched := hple
        _ ≤ ((n + 1 : ℕ) : ℚ) * sched := hone
        _ < st.balance := hlt
    rw [if_neg hnotpay]
    have hbal' : roundMoney (st.balance - p) = st.balance - p := (hc.sub hpc).roundMoney_eq
    have hnext : ((n : ℕ) : ℚ) * sched < st.balance - p := by
      have : ((n + 1 : ℕ) : ℚ) * sched = (n : ℚ) * sched + sched := by
        push_cast
        ring
      rw [this] at hlt
      linarith
    have := ih { balance := roundMoney (st.balance - p)
                 months := st.months + 1
                 interestTotal := roundMoney (st.interestTotal + roundMoney (st.balance * r))
                 balances := roundMoney (st.balance - p) :: st.balances }
      (by rw [hbal']; exact hc.sub hpc) (by rw [hbal']; exact hnext)
    rw [this]
    dsimp only
    omega

section CentEvaluations
set_option maxRecDepth 100000
attribute [local semireducible] Rat.mul Rat.inv Rat.add Rat.sub

theorem roundMoney_first_interest_large : roundMoney (125 / 3 : ℚ) = 4167 / 100 := by
  decide

theorem roundMoney_bump_large : roundMoney (4167 / 100 + 1 / 100 : ℚ) = 4168 / 100 := by
  decide

end CentEvaluations

/-- Bernoulli: one month of compounding at 1/24000 over a 24000-month
span at least doubles. -/
theorem one_add_recip_pow_ge_two : (2 : ℚ) ≤ (1 + 1 / 24000) ^ 24000 := by
  have h := one_add_mul_le_pow (by norm_num : (-2 : ℚ) ≤ 1 / 24000) 24000
  calc (2 : ℚ) = 1 + (24000 : ℕ) * (1 / 24000 : ℚ) := by norm_num
    _ ≤ (1 + 1 / 24000) ^ 24000 := h

/-- The 312000-month growth factor is at least 2^13 = 8192. -/
theorem growth_factor_ge_8192 : (8192 : ℚ) ≤ (1 + 1 / 24000) ^ 312000 := by
  have h13 : ((2 : ℚ)) ^ 13 ≤ ((1 + 1 / 24000 : ℚ) ^ 24000) ^ 13 :=
    pow_le_pow_left (by norm_num) one_add_recip_pow_ge_two 13
  have hm : (24000 * 13 : ℕ) = 312000 := by norm_num
  have h2 : ((1 + 1 / 24000 : ℚ) ^ 24000) ^ 13 = (1 + 1 / 24000 : ℚ) ^ 312000 := by
    rw [← pow_mul, hm]
  rw [← h2]
  calc (8192 : ℚ) = 2 ^ 13 := by norm_num
    _ ≤ ((1 + 1 / 24000 : ℚ) ^ 24000) ^ 13 := h13

/-- For any growth factor of at least 8192, the payment (125/3)k/(k-1)
lies in (41.6667, 41.6718], so it rounds to 41.67. -/
theorem stretched_floor_eq (k : ℚ) (hK : (8192 : ℚ) ≤ k) :
    ⌊(125 / 3 * k / (k - 1)) * 100 + 1 / 2⌋ = (4167 : ℤ) := by
  have hkpos : (0 : ℚ) < k - 1 := by linarith
  have hPlow : (125 / 3 : ℚ) < 125 / 3 * k / (k - 1) := by
    rw [lt_div_iff hkpos]
    linarith
  have hPhigh : (125 / 3 : ℚ) * k / (k - 1) ≤ 1024000 / 24573 := by
    rw [div_le_iff hkpos]
    linarith
  apply Int.floor_eq_iff.mpr
  constructor
  · push_cast
    linarith
  · push_cast
    linarith

/-- The rounded amortisation payment for a 1,000,000 balance at 0.05
percent over 312000 months is 41.67, one cent below covering interest. -/
theorem roundMoney_monthlyPayment_stretched :
    roundMoney (monthlyPayment 1000000 (1 / 20) 312000) = 4167 / 100 := by
  have hscale : ∀ q : ℚ, (1000000 : ℚ) * ((1 / 24000) * q) = 125 / 3 * q := fun q => by ring
  have hP : monthlyPayment 1000000 (1 / 20) 312000
      = 1000000 * ((1 / 24000 : ℚ) * (1 + 1 / 24000) ^ 312000)
        / ((1 + 1 / 24000 : ℚ) ^ 312000 - 1) := by
    rw [monthlyPayment, if_neg (by norm_num : ¬ (1 / 20 : ℚ) = 0)]
    show 1000000 * ((1 / 20 / 100 / 12 : ℚ) * (1 + 1 / 20 / 100 / 12) ^ 312000)
        / ((1 + 1 / 20 / 100 / 12 : ℚ) ^ 312000 - 1) = _
    rw [show ((1 : ℚ) / 20 / 100 / 12) = 1 / 24000 from by norm_num]
  rw [hP, hscale, roundMoney,
    stretched_floor_eq ((1 + 1 / 24000 : ℚ) ^ 312000) growth_factor_ge_8192]
  norm_num

/-- For balance 1,000,000 at rate 0.05 over 312000 months, the rounded
amortisation payment 41.67 exactly equals the first month of interest,
so the guard bumps the scheduled payment to 41.68. -/
theorem computeScheduledPayment_stretched :
    computeScheduledPayment ⟨1000000, 1 / 20, 312000⟩ = 4168 / 100 := by
  simp only [computeScheduledPayment]
  rw [roundMoney_monthlyPayment_stretched]
  rw [show (1000000 : ℚ) * (1 / 20 / 100 / 12) = 125 / 3 from by norm_num]
  rw [roundMoney_first_interest_large]
  rw [if_neg (by norm_num : ¬ (4167 / 100 : ℚ) < 1 / 100)]
  rw [if_pos (by norm_num : (0 : ℚ) < 1 / 20)]
  rw [if_pos (le_refl (4167 / 100 : ℚ))]
  exact roundMoney_bump_large

/-- C4.  Termination under the safety cap fails: the normalised input
with balance 1000000 (within [1, 100000000]), rate 0.05 (within
[0, 25]), integral term 312000 >= 1 and extra 0 drives the single-loan
simulation through all 12000 safety-cap months, because the scheduled
payment 41.68 satisfies 12000 * 41.68 = 500160 < 1000000, and the
simulation raises the safety-cap error. -/
theorem safety_cap_raised_for_normalised_input :
    simulateSingle ⟨1000000, 1 / 20, 312000⟩ 0
      = Except.error "Single simulation exceeded safety cap." := by
  simp only [simulateSingle]
  rw [computeScheduledPayment_stretched]
  have hm := ssGo_runs_out_of_fuel (1 / 20 / 100 / 12) (4168 / 100) (by norm_num)
    (by norm_num) ⟨4168, by norm_num⟩ MAX_MONTHS
    ⟨1000000, 0, 0, [1000000]⟩ ⟨100000000, by norm_num⟩
    (by norm_num [MAX_MONTHS])
  rw [if_pos (by rw [hm]; rfl)]

/-! ## C1: zero-pool coupling between the cascade and the baseline -/

theorem ssGo_cleared (r sched e : ℚ) (fuel : ℕ) (st : SingleLoopState)
    (h : st.balance ≤ 0) : ssGo r sched e fuel st = st := by
  cases fuel with
  | zero => rfl
  | succ n => simp only [ssGo, if_neg (not_lt.mpr h)]

theorem isCents_monthInterest (b r : ℚ) : IsCents (monthInterest b r) := by
  rw [monthInterest]
  split_ifs
  · exact isCents_roundMoney _
  · exact isCents_zero

theorem monthInterest_of_nonpos {b : ℚ} (r : ℚ) (h : b ≤ 0) : monthInterest b r = 0 :=
  if_neg (not_lt.mpr h)

theorem postSched_zero (sched r : ℚ) : postSched 0 sched r = 0 := by
  rw [postSched, schedPrincipal]
  norm_num
  exact roundMoney_zero

/-- An active loan's single step with zero extra: the new balance and
the pushed trace entry are exactly the cascade's post-scheduled-payment
balance, the interest accrues, and one month elapses. -/
theorem ssGo_step (r sched : ℚ) (fuel : ℕ) (st : SingleLoopState)
    (hb : 0 < st.balance) :
    ssGo r sched 0 (fuel + 1) st
      = ssGo r sched 0 fuel
          { balance := postSched st.balance sched r
            months := st.months + 1
            interestTotal := roundMoney (st.interestTotal + monthInterest st.balance r)
            balances := postSched st.balance sched r :: st.balances } := by
  have hmi : monthInterest st.balance r = roundMoney (st.balance * r) := if_pos hb
  simp only [ssGo, if_pos hb]
  set i := roundMoney (st.balance * r) with hidef
  set p0 := roundMoney (sched - i) with hp0def
  set p := if p0 < 0 then 0 else p0 with hpdef
  have hpc : IsCents p := by
    rw [hpdef]
    split_ifs
    · exact isCents_zero
    · exact isCents_roundMoney _
  have htp : roundMoney (p + 0) = p := by
    rw [add_zero]
    exact hpc.roundMoney_eq
  rw [htp]
  have hsched : postSched st.balance sched r = roundMoney (st.balance - max 0 (min p0 st.balance)) := by
    rw [postSched, schedPrincipal, hmi, if_pos hb]
  by_cases hpay : st.balance ≤ p
  · rw [if_pos hpay]
    have hp0nn : ¬ p0 < 0 := by
      intro hneg
      rw [hpdef, if_pos hneg] at hpay
      exact absurd hpay (not_le.mpr hb)
    have hpe : p = p0 := by rw [hpdef, if_neg hp0nn]
    have hps : postSched st.balance sched r = 0 := by
      rw [hsched, min_eq_right (hpe ▸ hpay), max_eq_right (le_of_lt hb), sub_self]
      exact roundMoney_zero
    rw [ssGo_cleared _ _ _ _ _ (by rw [hps])]
    rw [hps, hmi]
  · rw [if_neg hpay]
    have hplt : p < st.balance := not_le.mp hpay
    have hmaxmin : max 0 (min p0 st.balance) = p := by
      by_cases hneg : p0 < 0
      · rw [hpdef, if_pos hneg]
        rw [min_eq_left (le_of_lt (lt_trans hneg hb))]
        exact max_eq_left (le_of_lt hneg)
      · have hpe : p = p0 := by rw [hpdef, if_neg hneg]
        rw [min_eq_left (le_of_lt (hpe ▸ hplt))]
        rw [max_eq_right (not_lt.mp hneg), hpe]
    have hps : postSched st.balance sched r = roundMoney (st.balance - p) := by
      rw [hsched, hmaxmin]
    rw [hps, hmi]

theorem cascFrom_zero (cfg : CascCfg) (he1 : cfg.extra1 = 0) (he2 : cfg.extra2 = 0)
    (hrs : cfg.redirectScheduled = false) (b1 b2 : ℚ) :
    cascFrom cfg b1 b2 = (0, 0) := by
  rw [cascFrom]
  split_ifs <;> simp_all

theorem cascAccrue_interestTotal (cfg : CascCfg) (st : CascSt) :
    (cascAccrue cfg st).interestTotal =
      roundMoney (st.interestTotal + monthInterest st.b1 cfg.r1
        + monthInterest st.b2 cfg.r2) := rfl

theorem cascSnapRecord_interestTotal (st : CascSt) :
    (cascSnapRecord st).interestTotal = st.interestTotal := rfl

theorem cascYearEnd_months (st : CascSt) : (cascYearEnd st).months = st.months := by
  rw [cascYearEnd]
  split_ifs <;> rfl

theorem cascYearEnd_interestTotal (st : CascSt) :
    (cascYearEnd st).interestTotal = st.interestTotal := by
  rw [cascYearEnd]
  split_ifs <;> rfl

/-- With an empty pool and cents balances the allocation stage changes
nothing at all. -/
theorem cascAllocate_zero_pool (cfg : CascCfg) (st : CascSt)
    (hfrom : cascFrom cfg st.b1 st.b2 = (0, 0))
    (hb1 : 0 ≤ st.b1) (hb2 : 0 ≤ st.b2)
    (hc1 : IsCents st.b1) (hc2 : IsCents st.b2) :
    cascAllocate cfg st = st := by
  rw [cascAllocate]
  simp only [hfrom, add_zero, min_eq_left hb1, min_eq_left hb2, sub_zero,
    hc1.roundMoney_eq, hc2.roundMoney_eq, lt_self_iff_false, if_false]
  split_ifs <;> rfl

/-- With zero extras and no scheduled redirect the cascade month acts on
each loan independently, exactly as a zero-extra single-loan step. -/
theorem cascMonth_zero_pool (cfg : CascCfg) (st : CascSt)
    (he1 : cfg.extra1 = 0) (he2 : cfg.extra2 = 0) (hrs : cfg.redirectScheduled = false)
    (hb1 : 0 ≤ st.b1) (hb2 : 0 ≤ st.b2) :
    (cascMonth cfg st).b1 = postSched st.b1 cfg.sched1 cfg.r1 ∧
    (cascMonth cfg st).b2 = postSched st.b2 cfg.sched2 cfg.r2 ∧
    (cascMonth cfg st).months = st.months + 1 ∧
    (cascMonth cfg st).interestTotal =
      roundMoney (st.interestTotal + monthInterest st.b1 cfg.r1
        + monthInterest st.b2 cfg.r2) := by
  have hacc1 : 0 ≤ (cascAccrue cfg st).b1 := by
    rw [cascAccrue_b1]
    exact postSched_nonneg _ _ hb1
  have hacc2 : 0 ≤ (cascAccrue cfg st).b2 := by
    rw [cascAccrue_b2]
    exact postSched_nonneg _ _ hb2
  have hc1 : IsCents (cascAccrue cfg st).b1 := by
    rw [cascAccrue_b1]
    exact postSched_cents _ _ _
  have hc2 : IsCents (cascAccrue cfg st).b2 := by
    rw [cascAccrue_b2]
    exact postSched_cents _ _ _
  have halloc : cascAllocate cfg (cascAccrue cfg st) = cascAccrue cfg st :=
    cascAllocate_zero_pool cfg _ (cascFrom_zero cfg he1 he2 hrs _ _) hacc1 hacc2 hc1 hc2
  have hsnap1 : (cascSnapRecord (cascAccrue cfg st)).b1 = (cascAccrue cfg st).b1 := by
    rw [cascSnapRecord_b1, hc1.roundMoney_eq]
    split_ifs with h
    · exact (hc1.eq_zero_of_lt_cent hacc1 h).symm
    · rfl
  have hsnap2 : (cascSnapRecord (cascAccrue cfg st)).b2 = (cascAccrue cfg st).b2 := by
    rw [cascSnapRecord_b2, hc2.roundMoney_eq]
    split_ifs with h
    · exact (hc2.eq_zero_of_lt_cent hacc2 h).symm
    · rfl
  rw [cascMonth, halloc]
  refine ⟨?_, ?_, ?_, ?_⟩
  · rw [cascYearEnd_b1, hsnap1, cascAccrue_b1]
  · rw [cascYearEnd_b2, hsnap2, cascAccrue_b2]
  · rw [cascYearEnd_months, cascSnapRecord_months, cascAccrue_months]
  · rw [cascYearEnd_interestTotal, cascSnapRecord_interestTotal, cascAccrue_interestTotal]

/-- One fuel unit of a zero-extra single-loan run, seen from a coupled
balance b: the run either steps (active) or stays put (cleared). -/
theorem ssGo_coupled_step (r sched : ℚ) (n : ℕ) (s : SingleLoopState) (b : ℚ)
    (hb : b = s.balance) (hnn : 0 ≤ s.balance) (hic : IsCents s.interestTotal) :
    ∃ t : SingleLoopState,
      ssGo r sched 0 (n + 1) s = ssGo r sched 0 n t ∧
      t.balance = postSched b sched r ∧
      0 ≤ t.balance ∧
      IsCents t.interestTotal ∧
      t.interestTotal = s.interestTotal + monthInterest b r ∧
      ((0 < b ∧ t.months = s.months + 1) ∨ (b ≤ 0 ∧ t = s)) := by
  by_cases hpos : 0 < b
  · refine ⟨{ balance := postSched s.balance sched r
              months := s.months + 1
              interestTotal := roundMoney (s.interestTotal + monthInterest s.balance r)
              balances := postSched s.balance sched r :: s.balances },
      ssGo_step r sched n s (hb ▸ hpos), ?_, ?_, ?_, ?_, Or.inl ⟨hpos, rfl⟩⟩
    · rw [hb]
    · exact postSched_nonneg _ _ hnn
    · exact isCents_roundMoney _
    · rw [(hic.add (isCents_monthInterest _ _)).roundMoney_eq, hb]
  · have hb0 : b ≤ 0 := not_lt.mp hpos
    have hsz : s.balance = 0 := le_antisymm (hb ▸ hb0) hnn
    have hbz : b = 0 := by rw [hb, hsz]
    refine ⟨s, ?_, ?_, hnn, hic, ?_, Or.inr ⟨hb0, rfl⟩⟩
    · rw [ssGo_cleared r sched 0 (n + 1) s (le_of_eq hsz),
        ssGo_cleared r sched 0 n s (le_of_eq hsz)]
    · rw [hbz, postSched_zero, hsz]
    · rw [hbz, monthInterest_of_nonpos r (le_refl 0), add_zero]

/-- Master coupling: with zero extras and no scheduled redirect, the
cascade loop tracks the two independent zero-extra single-loan loops
exactly, in balances, interest totals and month counts. -/
theorem cascGo_zero_pool_coupling (cfg : CascCfg)
    (he1 : cfg.extra1 = 0) (he2 : cfg.extra2 = 0) (hrs : cfg.redirectScheduled = false) :
    ∀ (fuel : ℕ) (s1 s2 : SingleLoopState) (st : CascSt),
      st.b1 = s1.balance → st.b2 = s2.balance →
      0 ≤ s1.balance → 0 ≤ s2.balance →
      IsCents s1.interestTotal → IsCents s2.interestTotal →
      st.interestTotal = s1.interestTotal + s2.interestTotal →
      (0 < st.b1 → st.months = s1.months) →
      (0 < st.b2 → st.months = s2.months) →
      s1.months ≤ st.months → s2.months ≤ st.months →
      (st.b1 ≤ 0 ∧ st.b2 ≤ 0 → st.months = max s1.months s2.months) →
      (cascGo cfg fuel st).b1 = (ssGo cfg.r1 cfg.sched1 0 fuel s1).balance ∧
      (cascGo cfg fuel st).b2 = (ssGo cfg.r2 cfg.sched2 0 fuel s2).balance ∧
      (cascGo cfg fuel st).interestTotal
        = (ssGo cfg.r1 cfg.sched1 0 fuel s1).interestTotal
          + (ssGo cfg.r2 cfg.sched2 0 fuel s2).interestTotal ∧
      ((cascGo cfg fuel st).b1 ≤ 0 ∧ (cascGo cfg fuel st).b2 ≤ 0 →
        (cascGo cfg fuel st).months
          = max (ssGo cfg.r1 cfg.sched1 0 fuel s1).months
              (ssGo cfg.r2 cfg.sched2 0 fuel s2).months) ∧
      ((cascGo cfg fuel st).months = st.months + fuel ∨
        ((cascGo cfg fuel st).b1 ≤ 0 ∧ (cascGo cfg fuel st).b2 ≤ 0)) := by
  intro fuel
  induction fuel with
  | zero =>
    intro s1 s2 st h1 h2 _ _ _ _ hT _ _ _ _ hdone
    exact ⟨h1, h2, hT, hdone, Or.inl rfl⟩
  | succ n ih =>
    intro s1 s2 st h1 h2 hn1 hn2 hic1 hic2 hT hm1 hm2 hle1 hle2 hdone
    have hstb1 : 0 ≤ st.b1 := by rw [h1]; exact hn1
    have hstb2 : 0 ≤ st.b2 := by rw [h2]; exact hn2
    by_cases hstop : st.b1 ≤ 0 ∧ st.b2 ≤ 0
    · have hcg : cascGo cfg (n + 1) st = st := by
        simp only [cascGo, if_pos hstop]
      have hs1 : ssGo cfg.r1 cfg.sched1 0 (n + 1) s1 = s1 :=
        ssGo_cleared _ _ _ _ _ (by rw [← h1]; exact hstop.1)
      have hs2 : ssGo cfg.r2 cfg.sched2 0 (n + 1) s2 = s2 :=
        ssGo_cleared _ _ _ _ _ (by rw [← h2]; exact hstop.2)
      rw [hcg, hs1, hs2]
      exact ⟨h1, h2, hT, hdone, Or.inr hstop⟩
    · have halive : 0 < st.b1 ∨ 0 < st.b2 := by
        rcases lt_or_le 0 st.b1 with h | h
        · exact Or.inl h
        · rcases lt_or_le 0 st.b2 with h' | h'
          · exact Or.inr h'
          · exact absurd ⟨h, h'⟩ hstop
      have hcg : cascGo cfg (n + 1) st = cascGo cfg n (cascMonth cfg st) := by
        simp only [cascGo, if_neg hstop]
      obtain ⟨hb1', hb2', hmo', hit'⟩ :=
        cascMonth_zero_pool cfg st he1 he2 hrs hstb1 hstb2
      obtain ⟨t1, H1, hbal1, hnn1', hTc1, hTv1, hmup1⟩ :=
        ssGo_coupled_step cfg.r1 cfg.sched1 n s1 st.b1 h1 hn1 hic1
      obtain ⟨t2, H2, hbal2, hnn2', hTc2, hTv2, hmup2⟩ :=
        ssGo_coupled_step cfg.r2 cfg.sched2 n s2 st.b2 h2 hn2 hic2
      set st' := cascMonth cfg st with hst'
      have hmup1' : t1.months ≤ st.months + 1 := by
        rcases hmup1 with ⟨_, hm⟩ | ⟨_, he⟩
        · rw [hm]
          omega
        · rw [he]
          omega
      have hmup2' : t2.months ≤ st.months + 1 := by
        rcases hmup2 with ⟨_, hm⟩ | ⟨_, he⟩
        · rw [hm]
          omega
        · rw [he]
          omega
      have hact1 : 0 < st.b1 → t1.months = st.months + 1 := by
        intro ha
        rcases hmup1 with ⟨_, hm⟩ | ⟨hb0, _⟩
        · rw [hm, hm1 ha]
        · exact absurd ha (not_lt.mpr hb0)
      have hact2 : 0 < st.b2 → t2.months = st.months + 1 := by
        intro ha
        rcases hmup2 with ⟨_, hm⟩ | ⟨hb0, _⟩
        · rw [hm, hm2 ha]
        · exact absurd ha (not_lt.mpr hb0)
      have hibal1 : st'.b1 = t1.balance := by
        rw [hb1', hbal1]
      have hibal2 : st'.b2 = t2.balance := by
        rw [hb2', hbal2]
      have hisum : st'.interestTotal = t1.interestTotal + t2.interestTotal := by
        rw [hit', hT, hTv1, hTv2]
        rw [(((hic1.add hic2).add (isCents_monthInterest st.b1 cfg.r1)).add
          (isCents_monthInterest st.b2 cfg.r2)).roundMoney_eq]
        ring
      have him1 : 0 < st'.b1 → st'.months = t1.months := by
        intro hpos
        rcases hmup1 with ⟨ha, hm⟩ | ⟨hb0, he⟩
        · rw [hmo', hm, hm1 ha]
        · exfalso
          rw [hibal1, he] at hpos
          have : s1.balance = 0 := le_antisymm (by rw [← h1]; exact hb0) hn1
          rw [this] at hpos
          exact lt_irrefl 0 hpos
      have him2 : 0 < st'.b2 → st'.months = t2.months := by
        intro hpos
        rcases hmup2 with ⟨ha, hm⟩ | ⟨hb0, he⟩
        · rw [hmo', hm, hm2 ha]
        · exfalso
          rw [hibal2, he] at hpos
          have : s2.balance = 0 := le_antisymm (by rw [← h2]; exact hb0) hn2
          rw [this] at hpos
          exact lt_irrefl 0 hpos
      have hile1 : t1.months ≤ st'.months := by
        rw [hmo']
        exact hmup1'
      have hile2 : t2.months ≤ st'.months := by
        rw [hmo']
        exact hmup2'
      have hidone : st'.b1 ≤ 0 ∧ st'.b2 ≤ 0 → st'.months = max t1.months t2.months := by
        intro _
        rw [hmo']
        rcases halive with ha | ha
        · rw [Nat.max_eq_left (by rw [hact1 ha]; exact hmup2'), hact1 ha]
        · rw [Nat.max_eq_right (by rw [hact2 ha]; exact hmup1'), hact2 ha]
      obtain ⟨C1, C2, C3, C4, C5⟩ := ih t1 t2 st' hibal1 hibal2 hnn1' hnn2'
        hTc1 hTc2 hisum him1 him2 hile1 hile2 hidone
      rw [hcg, H1, H2]
      refine ⟨C1, C2, C3, C4, ?_⟩
      rcases C5 with h | h
      · left
        rw [h, hmo']
        omega
      · right
        exact h

/-- Inversion of simulateBaseline: a normal return comes from two normal
single runs and the combined fields are assembled from them. -/
theorem simulateBaseline_ok_elim (m1 m2 : Mortgage) (e1 e2 : ℚ) (bres : BaselineResult)
    (h : simulateBaseline m1 m2 e1 e2 = Except.ok bres) :
    ∃ r1 r2, simulateSingle m1 e1 = Except.ok r1 ∧ simulateSingle m2 e2 = Except.ok r2 ∧
      bres.months = max r1.months r2.months ∧
      bres.interest = roundMoney (r1.interest + r2.interest) := by
  rcases h1 : simulateSingle m1 e1 with e | r1
  · rw [simulateBaseline, bind, Except.instMonad] at h
    simp only [Except.bind, h1] at h
    exact Except.noConfusion h
  · rcases h2 : simulateSingle m2 e2 with e | r2
    · rw [simulateBaseline, bind, Except.instMonad] at h
      simp only [Except.bind, h1, h2] at h
      exact Except.noConfusion h
    · rw [simulateBaseline, bind, Except.instMonad] at h
      simp only [Except.bind, h1, h2] at h
      refine ⟨r1, r2, rfl, rfl, ?_, ?_⟩
      · rw [← Except.ok.inj h]
      · rw [← Except.ok.inj h]

/-- Inversion of simulateSingle: a normal return means the loop stopped
strictly before the cap, and the result carries the loop's counters. -/
theorem simulateSingle_ok_elim (m : Mortgage) (e : ℚ) (r : SingleResult)
    (h : simulateSingle m e = Except.ok r) :
    (ssGo (m.rate / 100 / 12) (computeScheduledPayment m) e MAX_MONTHS
        { balance := m.balance, months := 0, interestTotal := 0,
          balances := [m.balance] }).months ≠ MAX_MONTHS ∧
    r.months = (ssGo (m.rate / 100 / 12) (computeScheduledPayment m) e MAX_MONTHS
        { balance := m.balance, months := 0, interestTotal := 0,
          balances := [m.balance] }).months ∧
    r.interest = (ssGo (m.rate / 100 / 12) (computeScheduledPayment m) e MAX_MONTHS
        { balance := m.balance, months := 0, interestTotal := 0,
          balances := [m.balance] }).interestTotal := by
  rw [simulateSingle] at h
  by_cases hm : (ssGo (m.rate / 100 / 12) (computeScheduledPayment m) e MAX_MONTHS
      { balance := m.balance, months := 0, interestTotal := 0,
        balances := [m.balance] }).months = MAX_MONTHS
  · rw [if_pos hm] at h
    exact Except.noConfusion h
  · rw [if_neg hm] at h
    refine ⟨hm, ?_, ?_⟩
    · rw [← Except.ok.inj h]
    · rw [← Except.ok.inj h]

/-- Inversion of simulateCascade: a normal return means the loop stopped
strictly before the cap, and the result carries the loop's counters. -/
theorem simulateCascade_ok_elim (m1 m2 : Mortgage) (e1 e2 : ℚ)
    (rS rE : Bool) (strat : Strategy) (c : CascadeResult)
    (h : simulateCascade m1 m2 e1 e2 rS rE strat = Except.ok c) :
    (cascGo (CascCfg.mk m1 m2 e1 e2 rS rE strat)
        MAX_MONTHS (cascInit m1 m2)).months ≠ MAX_MONTHS ∧
    c.months = (cascGo (CascCfg.mk m1 m2 e1 e2 rS rE strat)
        MAX_MONTHS (cascInit m1 m2)).months ∧
    c.interest = roundMoney (cascGo (CascCfg.mk m1 m2 e1 e2 rS rE strat)
        MAX_MONTHS (cascInit m1 m2)).interestTotal := by
  rw [simulateCascade] at h
  by_cases hm : (cascGo (CascCfg.mk m1 m2 e1 e2 rS rE strat)
      MAX_MONTHS (cascInit m1 m2)).months = MAX_MONTHS
  · rw [if_pos hm] at h
    exact Except.noConfusion h
  · rw [if_neg hm] at h
    refine ⟨hm, ?_, ?_⟩
    · rw [← Except.ok.inj h]
    · rw [← Except.ok.inj h]

/-- C1, amended.  With both extras zero the cascade matches the baseline
only when the scheduled-redirect toggle is off (the counterexample
theorem shows the default redirectScheduled = true changes the run by
redirecting a cleared loan's scheduled payment): for every input pair,
redirect-extra toggle and strategy, a normal return of the entry point
with extras 0 and redirectScheduled = false has monthsSaved = 0 and
interestSaved = 0. -/
theorem calculateCascade_zero_extra_equiv (m1 m2 : RawMortgage)
    (rE : Bool) (strat : Strategy) (res : ComparisonResult)
    (h : calculateCascade m1 m2 0 0 false rE strat = Except.ok res) :
    res.monthsSaved = 0 ∧ res.interestSaved = 0 := by
  have he : normaliseExtra 0 = 0 := by
    rw [normaliseExtra, clamp, max_self, min_eq_left (by norm_num)]
    exact roundMoney_zero
  obtain ⟨bres, cres, hb, hc, hres⟩ :=
    calculateCascade_ok_elim m1 m2 0 0 false rE strat res h
  rw [he] at hb hc
  set M1 := normaliseMortgage m1 with hM1
  set M2 := normaliseMortgage m2 with hM2
  obtain ⟨r1, r2, hs1, hs2, hbm, hbi⟩ := simulateBaseline_ok_elim M1 M2 0 0 bres hb
  obtain ⟨hcap1, hrm1, hri1⟩ := simulateSingle_ok_elim M1 0 r1 hs1
  obtain ⟨hcap2, hrm2, hri2⟩ := simulateSingle_ok_elim M2 0 r2 hs2
  obtain ⟨hcap, hcm, hci⟩ := simulateCascade_ok_elim M1 M2 0 0 false rE strat cres hc
  have hMb1 : 0 ≤ M1.balance := by
    rw [hM1]
    exact roundMoney_nonneg (le_min (le_trans zero_le_one (le_max_right _ _)) (by norm_num))
  have hMb2 : 0 ≤ M2.balance := by
    rw [hM2]
    exact roundMoney_nonneg (le_min (le_trans zero_le_one (le_max_right _ _)) (by norm_num))
  have couple := cascGo_zero_pool_coupling (CascCfg.mk M1 M2 0 0 false rE strat)
    rfl rfl rfl MAX_MONTHS
    ⟨M1.balance, 0, 0, [M1.balance]⟩
    ⟨M2.balance, 0, 0, [M2.balance]⟩
    (cascInit M1 M2)
    rfl rfl hMb1 hMb2 isCents_zero isCents_zero (zero_add 0).symm
    (fun _ => rfl) (fun _ => rfl) (le_refl 0) (le_refl 0)
    (fun _ => (Nat.max_self 0).symm)
  have hr1 : (CascCfg.mk M1 M2 0 0 false rE strat).r1 = M1.rate / 100 / 12 := rfl
  have hr2 : (CascCfg.mk M1 M2 0 0 false rE strat).r2 = M2.rate / 100 / 12 := rfl
  have hsc1 : (CascCfg.mk M1 M2 0 0 false rE strat).sched1 = computeScheduledPayment M1 := rfl
  have hsc2 : (CascCfg.mk M1 M2 0 0 false rE strat).sched2 = computeScheduledPayment M2 := rfl
  rw [hr1, hr2, hsc1, hsc2] at couple
  obtain ⟨cb1, cb2, cIT, cmax, cdisj⟩ := couple
  rcases cdisj with hfull | hcleared
  · exfalso
    have hinitm : (cascInit M1 M2).months = 0 := rfl
    rw [hinitm, Nat.zero_add] at hfull
    exact hcap hfull
  · have hmonths := cmax hcleared
    have hMnat : bres.months = cres.months := by
      rw [hbm, hrm1, hrm2, hcm, hmonths]
    have hI : bres.interest = cres.interest := by
      rw [hbi, hri1, hri2, hci, cIT]
    rw [hres]
    constructor
    · dsimp only
      have hz : (bres.months : ℤ) - (cres.months : ℤ) = 0 := by
        rw [hMnat]
        exact sub_self _
      rw [hz]
      norm_num
    · dsimp only
      have hz : bres.interest - cres.interest = 0 := by
        rw [hI]
        exact sub_self _
      rw [hz, roundMoney_zero]
      norm_num

section WitnessEvaluationFive

set_option maxRecDepth 1000000

attribute [local semireducible] Rat.mul Rat.inv Rat.add Rat.sub

/-- C1 amended, witness: for A = (100, 0%, 2 months), B = (1200, 0%,
24 months), zero extras and redirectScheduled off, the entry point
returns with monthsSaved = 0 and interestSaved = 0. -/
theorem calculateCascade_zero_extra_equiv_witness :
    (okOr dummyComparison
        (calculateCascade ⟨100, 0, 2⟩ ⟨1200, 0, 24⟩ 0 0 false true
          Strategy.avalanche)).monthsSaved = 0 ∧
    (okOr dummyComparison
        (calculateCascade ⟨100, 0, 2⟩ ⟨1200, 0, 24⟩ 0 0 false true
          Strategy.avalanche)).interestSaved = 0 := by
  apply calculateCascade_zero_extra_equiv ⟨100, 0, 2⟩ ⟨1200, 0, 24⟩ true Strategy.avalanche
  decide

end WitnessEvaluationFive

/-! ## C7 and C10: balance-sequence invariants of the three simulations -/

theorem getD_nonneg {l : List ℚ} (hl : ∀ x ∈ l, 0 ≤ x) (i : ℕ) : 0 ≤ l.getD i 0 := by
  by_cases h : i < l.length
  · rw [l.getD_eq_getElem 0 h]
    exact hl _ (l.getElem_mem h)
  · rw [l.getD_eq_default 0 (le_of_not_lt h)]

/-- The padded read of a most-recent-last non-increasing non-negative
list does not increase with the index. -/
theorem getD_antitone {l : List ℚ} (hl : ∀ x ∈ l, 0 ≤ x)
    (hch : List.Chain' (fun a b : ℚ => b ≤ a) l) (i : ℕ) :
    l.getD (i + 1) 0 ≤ l.getD i 0 := by
  by_cases h : i + 1 < l.length
  · rw [l.getD_eq_getElem 0 h, l.getD_eq_getElem 0 (by omega)]
    exact List.chain'_iff_get.mp hch i (by omega)
  · rw [l.getD_eq_default 0 (by omega)]
    exact getD_nonneg hl i

theorem roundMoney_sub_min_bounds (b x : ℚ) (hb : 0 ≤ b) (hx : 0 ≤ x)
    (hcb : IsCents b) :
    roundMoney (b - min x b) ≤ b ∧ 0 ≤ roundMoney (b - min x b) := by
  have h1 : 0 ≤ min x b := le_min hx hb
  have h2 : min x b ≤ b := min_le_right x b
  constructor
  · have h3 := roundMoney_mono (show b - min x b ≤ b by linarith)
    rwa [hcb.roundMoney_eq] at h3
  · exact roundMoney_nonneg (by linarith)

/-- Running invariant of the simulateSingle loop: cents non-negative
balance, non-negative interest total, and a recorded trace whose head is
the current balance, whose last (oldest) entry is the starting balance,
with one entry per elapsed month, all entries non-negative and
non-increasing in time (the trace is most-recent-first). -/
def SsInv (start : ℚ) (st : SingleLoopState) : Prop :=
  IsCents st.balance ∧ 0 ≤ st.balance ∧ 0 ≤ st.interestTotal ∧
  (∃ t, st.balances = st.balance :: t) ∧
  (∃ p, st.balances = p ++ [start]) ∧
  st.balances.length = st.months + 1 ∧
  (∀ x ∈ st.balances, 0 ≤ x) ∧
  List.Chain' (fun a b : ℚ => a ≤ b) st.balances

theorem ssGo_inv (r sched extra : ℚ) (hr : 0 ≤ r) (he : 0 ≤ extra) (start : ℚ) :
    ∀ (fuel : ℕ) (st : SingleLoopState), SsInv start st →
      SsInv start (ssGo r sched extra fuel st) := by
  intro fuel
  induction fuel with
  | zero =>
    intro st hst
    exact hst
  | succ n ih =>
    intro st hst
    obtain ⟨hcb, hnb, hni, ⟨t, ht⟩, ⟨p, hp⟩, hlen, hnn, hch⟩ := hst
    by_cases hb : 0 < st.balance
    · simp only [ssGo, if_pos hb]
      set i := roundMoney (st.balance * r) with hidef
      set p0 := roundMoney (sched - i) with hp0def
      set pr := if p0 < 0 then 0 else p0 with hprdef
      set tp := roundMoney (pr + extra) with htpdef
      have hinn : 0 ≤ i := roundMoney_nonneg (mul_nonneg (le_of_lt hb) hr)
      have hprnn : 0 ≤ pr := by
        rw [hprdef]
        split_ifs with hh
        · exact le_refl 0
        · exact not_lt.mp hh
      have htpnn : 0 ≤ tp := roundMoney_nonneg (add_nonneg hprnn he)
      have hitnn : 0 ≤ roundMoney (st.interestTotal + i) :=
        roundMoney_nonneg (add_nonneg hni hinn)
      by_cases hpay : st.balance ≤ tp
      · rw [if_pos hpay]
        refine ⟨isCents_zero, le_refl 0, hitnn, ⟨st.balances, rfl⟩,
          ⟨0 :: p, by rw [hp]; rfl⟩, by simp [hlen], ?_, ?_⟩
        · intro x hx
          rcases List.mem_cons.mp hx with hx | hx
          · rw [hx]
          · exact hnn x hx
        · rw [ht]
          exact List.chain'_cons.mpr ⟨le_of_lt hb, ht ▸ hch⟩
      · rw [if_neg hpay]
        apply ih
        have hnb' : 0 ≤ roundMoney (st.balance - tp) :=
          roundMoney_nonneg (by linarith [not_le.mp hpay])
        have hle' : roundMoney (st.balance - tp) ≤ st.balance := by
          have h3 := roundMoney_mono (show st.balance - tp ≤ st.balance by linarith)
          rwa [hcb.roundMoney_eq] at h3
        refine ⟨isCents_roundMoney _, hnb', hitnn, ⟨st.balances, rfl⟩,
          ⟨roundMoney (st.balance - tp) :: p, by rw [hp]; rfl⟩, by simp [hlen], ?_, ?_⟩
        · intro x hx
          rcases List.mem_cons.mp hx with hx | hx
          · rw [hx]
            exact hnb'
          · exact hnn x hx
        · rw [ht]
          exact List.chain'_cons.mpr ⟨hle', ht ▸ hch⟩
    · simp only [ssGo, if_neg hb]
      exact ⟨hcb, hnb, hni, ⟨t, ht⟩, ⟨p, hp⟩, hlen, hnn, hch⟩

theorem ssGo_months_le (r sched extra : ℚ) :
    ∀ (fuel : ℕ) (st : SingleLoopState),
      (ssGo r sched extra fuel st).months ≤ st.months + fuel := by
  intro fuel
  induction fuel with
  | zero =>
    intro st
    exact Nat.le_refl _
  | succ n ih =>
    intro st
    by_cases hb : 0 < st.balance
    · simp only [ssGo, if_pos hb]
      split_ifs
      all_goals first
      | (dsimp only; omega)
      | (refine le_trans (ih _) ?_; dsimp only; omega)
    · simp only [ssGo, if_neg hb]
      omega

theorem ssGo_exit (r sched extra : ℚ) :
    ∀ (fuel : ℕ) (st : SingleLoopState),
      (ssGo r sched extra fuel st).months ≠ st.months + fuel →
      (ssGo r sched extra fuel st).balance ≤ 0 := by
  intro fuel
  induction fuel with
  | zero =>
    intro st h
    exact absurd rfl h
  | succ n ih =>
    intro st h
    by_cases hb : 0 < st.balance
    · simp only [ssGo, if_pos hb] at h ⊢
      split_ifs at h ⊢
      all_goals first
      | exact le_refl 0
      | (refine ih _ (fun heq => h ?_); rw [heq]; dsimp only; omega)
    · simp only [ssGo, if_neg hb] at h ⊢
      exact not_lt.mp hb

theorem simulateSingle_ok_balances (m : Mortgage) (e : ℚ) (r : SingleResult)
    (h : simulateSingle m e = Except.ok r) :
    r.balances = (ssGo (m.rate / 100 / 12) (computeScheduledPayment m) e MAX_MONTHS
        { balance := m.balance, months := 0, interestTotal := 0,
          balances := [m.balance] }).balances.reverse := by
  rw [simulateSingle] at h
  by_cases hm : (ssGo (m.rate / 100 / 12) (computeScheduledPayment m) e MAX_MONTHS
      { balance := m.balance, months := 0, interestTotal := 0,
        balances := [m.balance] }).months = MAX_MONTHS
  · rw [if_pos hm] at h
    exact Except.noConfusion h
  · rw [if_neg hm] at h
    rw [← Except.ok.inj h]

/-- All invariant and shape facts about a single-loan run that returned
normally, for a cents non-negative starting balance, non-negative rate
and non-negative extra payment. -/
theorem simulateSingle_ok_facts (m : Mortgage) (e : ℚ) (r : SingleResult)
    (hcb : IsCents m.balance) (hb : 0 ≤ m.balance) (hr : 0 ≤ m.rate) (he : 0 ≤ e)
    (h : simulateSingle m e = Except.ok r) :
    r.balances.length = r.months + 1 ∧
    r.balances.head? = some m.balance ∧
    r.balances.getLast? = some 0 ∧
    (∀ x ∈ r.balances, 0 ≤ x) ∧
    List.Chain' (fun a b : ℚ => b ≤ a) r.balances ∧
    0 ≤ r.interest := by
  obtain ⟨hcap, hmeq, hieq⟩ := simulateSingle_ok_elim m e r h
  have hbal := simulateSingle_ok_balances m e r h
  set out := ssGo (m.rate / 100 / 12) (computeScheduledPayment m) e MAX_MONTHS
      { balance := m.balance, months := 0, interestTotal := 0,
        balances := [m.balance] } with hout
  have hrnn : 0 ≤ m.rate / 100 / 12 := by positivity
  have hinv : SsInv m.balance out :=
    ssGo_inv (m.rate / 100 / 12) (computeScheduledPayment m) e hrnn he m.balance
      MAX_MONTHS _ ⟨hcb, hb, le_refl 0, ⟨[], rfl⟩, ⟨[], rfl⟩, rfl,
        by intro x hx; rcases List.mem_singleton.mp hx with hx; rw [hx]; exact hb,
        List.chain'_singleton _⟩
  obtain ⟨hcout, hnout, hiout, ⟨t, htout⟩, ⟨p, hpout⟩, hlout, hnnout, hchout⟩ := hinv
  have hdone : out.balance = 0 := by
    have hne : out.months ≠ (0 : ℕ) + MAX_MONTHS := by
      intro hcon
      rw [Nat.zero_add] at hcon
      exact hcap hcon
    exact le_antisymm (ssGo_exit _ _ _ MAX_MONTHS _ hne) hnout
  refine ⟨?_, ?_, ?_, ?_, ?_, ?_⟩
  · rw [hbal, List.length_reverse, hlout, hmeq]
  · rw [hbal, hpout, List.reverse_append, List.reverse_singleton, List.singleton_append]
    rfl
  · rw [hbal, htout, List.reverse_cons, List.getLast?_concat, hdone]
  · intro x hx
    rw [hbal] at hx
    exact hnnout x (List.mem_reverse.mp hx)
  · rw [hbal]
    exact List.chain'_reverse.mpr hchout
  · rw [hieq]
    exact hiout

theorem getD_last_zero {A : List ℚ} {k : ℕ} (hA : A.getLast? = some 0)
    (hlen : A.length ≤ k + 1) : A.getD k 0 = 0 := by
  by_cases h : k < A.length
  · rw [A.getD_eq_getElem 0 h]
    rw [List.getLast?_eq_getElem?] at hA
    have hk : A.length - 1 = k := by omega
    rw [hk, List.getElem?_eq_getElem h] at hA
    exact Option.some.inj hA
  · rw [A.getD_eq_default 0 (le_of_not_lt h)]

theorem combined_nonneg (A B : List ℚ) (hA : ∀ x ∈ A, 0 ≤ x) (hB : ∀ x ∈ B, 0 ≤ x) :
    ∀ x ∈ (List.range (max A.length B.length)).map
      (fun i => roundMoney (A.getD i 0 + B.getD i 0)), 0 ≤ x := by
  intro x hx
  obtain ⟨i, -, rfl⟩ := List.mem_map.mp hx
  exact roundMoney_nonneg (add_nonneg (getD_nonneg hA i) (getD_nonneg hB i))

theorem combined_chain (A B : List ℚ) (hA : ∀ x ∈ A, 0 ≤ x) (hB : ∀ x ∈ B, 0 ≤ x)
    (hcA : List.Chain' (fun a b : ℚ => b ≤ a) A)
    (hcB : List.Chain' (fun a b : ℚ => b ≤ a) B) :
    List.Chain' (fun a b : ℚ => b ≤ a) ((List.range (max A.length B.length)).map
      (fun i => roundMoney (A.getD i 0 + B.getD i 0))) := by
  rw [List.chain'_map]
  cases hn : max A.length B.length with
  | zero => exact List.chain'_nil
  | succ k =>
    rw [List.chain'_range_succ]
    intro m _
    exact roundMoney_mono (add_le_add (getD_antitone hA hcA m) (getD_antitone hB hcB m))

theorem combined_head (A B : List ℚ) (a b : ℚ) (hA : A.head? = some a) (hB : B.head? = some b) :
    ((List.range (max A.length B.length)).map
      (fun i => roundMoney (A.getD i 0 + B.getD i 0))).head? = some (roundMoney (a + b)) := by
  cases A with
  | nil => exact Option.noConfusion hA
  | cons x ta =>
    cases B with
    | nil => exact Option.noConfusion hB
    | cons y tb =>
      have hx : x = a := Option.some.inj hA
      have hy : y = b := Option.some.inj hB
      obtain ⟨k, hk⟩ : ∃ k, max (x :: ta).length (y :: tb).length = k + 1 := by
        refine ⟨max (x :: ta).length (y :: tb).length - 1, ?_⟩
        have h1 : 1 ≤ (x :: ta).length := by
          rw [List.length_cons]
          omega
        omega
      rw [hk, List.range_succ_eq_map, List.map_cons, List.head?_cons,
        List.getD_cons_zero, List.getD_cons_zero, hx, hy]

theorem combined_last (A B : List ℚ) (hA : A.getLast? = some 0) (hB : B.getLast? = some 0)
    (hAne : A ≠ []) (hBne : B ≠ []) :
    ((List.range (max A.length B.length)).map
      (fun i => roundMoney (A.getD i 0 + B.getD i 0))).getLast? = some 0 := by
  obtain ⟨k, hk⟩ : ∃ k, max A.length B.length = k + 1 := by
    refine ⟨max A.length B.length - 1, ?_⟩
    have h1 : 1 ≤ A.length := List.length_pos.mpr hAne
    omega
  have hAle : A.length ≤ k + 1 := by
    have := le_max_left A.length B.length
    omega
  have hBle : B.length ≤ k + 1 := by
    have := le_max_right A.length B.length
    omega
  rw [hk, List.range_succ, List.map_append, List.map_singleton, List.getLast?_concat,
    getD_last_zero hA hAle, getD_last_zero hB hBle, add_zero, roundMoney_zero]

theorem simulateBaseline_ok_full (m1 m2 : Mortgage) (e1 e2 : ℚ) (bres : BaselineResult)
    (h : simulateBaseline m1 m2 e1 e2 = Except.ok bres) :
    ∃ r1 r2, simulateSingle m1 e1 = Except.ok r1 ∧ simulateSingle m2 e2 = Except.ok r2 ∧
      bres = { months := max r1.months r2.months
               interest := roundMoney (r1.interest + r2.interest)
               balances := (List.range (max r1.balances.length r2.balances.length)).map
                 (fun i => roundMoney (r1.balances.getD i 0 + r2.balances.getD i 0))
               m1 := r1
               m2 := r2 } := by
  rcases h1 : simulateSingle m1 e1 with e | r1
  · rw [simulateBaseline, bind, Except.instMonad] at h
    simp only [Except.bind, h1] at h
    exact Except.noConfusion h
  · rcases h2 : simulateSingle m2 e2 with e | r2
    · rw [simulateBaseline, bind, Except.instMonad] at h
      simp only [Except.bind, h1, h2] at h
      exact Except.noConfusion h
    · rw [simulateBaseline, bind, Except.instMonad] at h
      simp only [Except.bind, h1, h2] at h
      exact ⟨r1, r2, rfl, rfl, (Except.ok.inj h).symm⟩

/-- All invariant and shape facts about a baseline run that returned
normally: each loan's sequence and the combined padded sequence. -/
theorem simulateBaseline_ok_facts (m1 m2 : Mortgage) (e1 e2 : ℚ) (bres : BaselineResult)
    (hc1 : IsCents m1.balance) (hb1 : 0 ≤ m1.balance) (hr1 : 0 ≤ m1.rate)
    (hc2 : IsCents m2.balance) (hb2 : 0 ≤ m2.balance) (hr2 : 0 ≤ m2.rate)
    (he1 : 0 ≤ e1) (he2 : 0 ≤ e2)
    (h : simulateBaseline m1 m2 e1 e2 = Except.ok bres) :
    (bres.m1.balances.length = bres.m1.months + 1 ∧
      bres.m1.balances.head? = some m1.balance ∧
      bres.m1.balances.getLast? = some 0 ∧
      (∀ x ∈ bres.m1.balances, 0 ≤ x) ∧
      List.Chain' (fun a b : ℚ => b ≤ a) bres.m1.balances ∧
      0 ≤ bres.m1.interest) ∧
    (bres.m2.balances.length = bres.m2.months + 1 ∧
      bres.m2.balances.head? = some m2.balance ∧
      bres.m2.balances.getLast? = some 0 ∧
      (∀ x ∈ bres.m2.balances, 0 ≤ x) ∧
      List.Chain' (fun a b : ℚ => b ≤ a) bres.m2.balances ∧
      0 ≤ bres.m2.interest) ∧
    (bres.balances.length = max bres.m1.months bres.m2.months + 1 ∧
      bres.balances.head? = some (roundMoney (m1.balance + m2.balance)) ∧
      bres.balances.getLast? = some 0 ∧
      (∀ x ∈ bres.balances, 0 ≤ x) ∧
      List.Chain' (fun a b : ℚ => b ≤ a) bres.balances ∧
      0 ≤ bres.interest) ∧
    bres.months = max bres.m1.months bres.m2.months := by
  obtain ⟨r1, r2, h1, h2, rfl⟩ := simulateBaseline_ok_full m1 m2 e1 e2 bres h
  obtain ⟨hl1, hh1, hz1, hn1, hch1, hi1⟩ := simulateSingle_ok_facts m1 e1 r1 hc1 hb1 hr1 he1 h1
  obtain ⟨hl2, hh2, hz2, hn2, hch2, hi2⟩ := simulateSingle_ok_facts m2 e2 r2 hc2 hb2 hr2 he2 h2
  have hne1 : r1.balances ≠ [] := by
    intro hcon
    rw [hcon] at hh1
    exact Option.noConfusion hh1
  have hne2 : r2.balances ≠ [] := by
    intro hcon
    rw [hcon] at hh2
    exact Option.noConfusion hh2
  refine ⟨⟨hl1, hh1, hz1, hn1, hch1, hi1⟩, ⟨hl2, hh2, hz2, hn2, hch2, hi2⟩,
    ⟨?_, ?_, ?_, ?_, ?_, ?_⟩, rfl⟩
  · show ((List.range (max r1.balances.length r2.balances.length)).map
      (fun i => roundMoney (r1.balances.getD i 0 + r2.balances.getD i 0))).length
      = max r1.months r2.months + 1
    rw [List.length_map, List.length_range, hl1, hl2]
    omega
  · have hhh := combined_head r1.balances r2.balances m1.balance m2.balance hh1 hh2
    exact hhh
  · exact combined_last r1.balances r2.balances hz1 hz2 hne1 hne2
  · exact combined_nonneg r1.balances r2.balances hn1 hn2
  · exact combined_chain r1.balances r2.balances hn1 hn2 hch1 hch2
  · exact roundMoney_nonneg (add_nonneg hi1 hi2)

theorem cascAllocate_interestTotal (cfg : CascCfg) (st : CascSt) :
    (cascAllocate cfg st).interestTotal = st.interestTotal := by
  simp only [cascAllocate, apply_ite CascSt.interestTotal, ite_self]

theorem cascAllocate_yearInterest (cfg : CascCfg) (st : CascSt) :
    (cascAllocate cfg st).yearInterest = st.yearInterest := by
  simp only [cascAllocate, apply_ite CascSt.yearInterest, ite_self]

theorem cascAllocate_balances (cfg : CascCfg) (st : CascSt) :
    (cascAllocate cfg st).balances = st.balances := by
  simp only [cascAllocate, apply_ite CascSt.balances, ite_self]

theorem cascAllocate_m1Balances (cfg : CascCfg) (st : CascSt) :
    (cascAllocate cfg st).m1Balances = st.m1Balances := by
  simp only [cascAllocate, apply_ite CascSt.m1Balances, ite_self]

theorem cascAllocate_m2Balances (cfg : CascCfg) (st : CascSt) :
    (cascAllocate cfg st).m2Balances = st.m2Balances := by
  simp only [cascAllocate, apply_ite CascSt.m2Balances, ite_self]

theorem cascAllocate_yearly (cfg : CascCfg) (st : CascSt) :
    (cascAllocate cfg st).yearly = st.yearly := by
  simp only [cascAllocate, apply_ite CascSt.yearly, ite_self]

theorem cascFrom_nonneg (cfg : CascCfg) (he1 : 0 ≤ cfg.extra1) (he2 : 0 ≤ cfg.extra2)
    (hs1 : 0 ≤ cfg.sched1) (hs2 : 0 ≤ cfg.sched2) (b1 b2 : ℚ) :
    0 ≤ (cascFrom cfg b1 b2).1 ∧ 0 ≤ (cascFrom cfg b1 b2).2 := by
  rw [cascFrom]
  split_ifs <;> refine ⟨?_, ?_⟩ <;> (try dsimp only) <;>
    first
    | assumption
    | exact le_refl 0
    | (apply add_nonneg <;> first | assumption | exact le_refl 0)

theorem cascAllocate_b1_bounds (cfg : CascCfg) (st : CascSt)
    (hf1 : 0 ≤ (cascFrom cfg st.b1 st.b2).1) (hf2 : 0 ≤ (cascFrom cfg st.b1 st.b2).2)
    (hb1 : 0 ≤ st.b1) (hc1 : IsCents st.b1) :
    (cascAllocate cfg st).b1 ≤ st.b1 ∧ 0 ≤ (cascAllocate cfg st).b1 ∧
      IsCents (cascAllocate cfg st).b1 := by
  have hbd := roundMoney_sub_min_bounds st.b1
    ((cascFrom cfg st.b1 st.b2).1 + (cascFrom cfg st.b1 st.b2).2) hb1
    (add_nonneg hf1 hf2) hc1
  simp only [cascAllocate]
  split_ifs
  all_goals first
  | exact ⟨hbd.1, hbd.2, isCents_roundMoney _⟩
  | exact ⟨le_refl st.b1, hb1, hc1⟩

theorem cascAllocate_b2_bounds (cfg : CascCfg) (st : CascSt)
    (hf1 : 0 ≤ (cascFrom cfg st.b1 st.b2).1) (hf2 : 0 ≤ (cascFrom cfg st.b1 st.b2).2)
    (hb2 : 0 ≤ st.b2) (hc2 : IsCents st.b2) :
    (cascAllocate cfg st).b2 ≤ st.b2 ∧ 0 ≤ (cascAllocate cfg st).b2 ∧
      IsCents (cascAllocate cfg st).b2 := by
  have hbd := roundMoney_sub_min_bounds st.b2
    ((cascFrom cfg st.b1 st.b2).1 + (cascFrom cfg st.b1 st.b2).2) hb2
    (add_nonneg hf1 hf2) hc2
  simp only [cascAllocate]
  split_ifs
  all_goals first
  | exact ⟨hbd.1, hbd.2, isCents_roundMoney _⟩
  | exact ⟨le_refl st.b2, hb2, hc2⟩

theorem monthInterest_nonneg {r : ℚ} (b : ℚ) (hr : 0 ≤ r) : 0 ≤ monthInterest b r := by
  rw [monthInterest]
  split_ifs with h
  · exact roundMoney_nonneg (mul_nonneg h.le hr)
  · exact le_refl 0

theorem postSched_le_self {b : ℚ} (sched r : ℚ) (hc : IsCents b) :
    postSched b sched r ≤ b := by
  rw [postSched]
  have h3 := roundMoney_mono (show b - schedPrincipal b sched (monthInterest b r) ≤ b by
    linarith [schedPrincipal_nonneg b sched (monthInterest b r)])
  rwa [hc.roundMoney_eq] at h3

theorem cascAccrue_yearInterest (cfg : CascCfg) (st : CascSt) :
    (cascAccrue cfg st).yearInterest =
      roundMoney (st.yearInterest + monthInterest st.b1 cfg.r1
        + monthInterest st.b2 cfg.r2) := rfl

theorem cascAccrue_balances (cfg : CascCfg) (st : CascSt) :
    (cascAccrue cfg st).balances = st.balances := rfl

theorem cascAccrue_m1Balances (cfg : CascCfg) (st : CascSt) :
    (cascAccrue cfg st).m1Balances = st.m1Balances := rfl

theorem cascAccrue_m2Balances (cfg : CascCfg) (st : CascSt) :
    (cascAccrue cfg st).m2Balances = st.m2Balances := rfl

theorem cascAccrue_yearly (cfg : CascCfg) (st : CascSt) :
    (cascAccrue cfg st).yearly = st.yearly := rfl

theorem cascSnapRecord_yearInterest (st : CascSt) :
    (cascSnapRecord st).yearInterest = st.yearInterest := rfl

theorem cascSnapRecord_yearly (st : CascSt) :
    (cascSnapRecord st).yearly = st.yearly := rfl

theorem cascSnapRecord_b1_of_cents (st : CascSt) (hc : IsCents st.b1) (hn : 0 ≤ st.b1) :
    (cascSnapRecord st).b1 = st.b1 := by
  rw [cascSnapRecord_b1, hc.roundMoney_eq]
  split_ifs with h
  · exact (hc.eq_zero_of_lt_cent hn h).symm
  · rfl

theorem cascSnapRecord_b2_of_cents (st : CascSt) (hc : IsCents st.b2) (hn : 0 ≤ st.b2) :
    (cascSnapRecord st).b2 = st.b2 := by
  rw [cascSnapRecord_b2, hc.roundMoney_eq]
  split_ifs with h
  · exact (hc.eq_zero_of_lt_cent hn h).symm
  · rfl

theorem cascSnapRecord_traces_of_cents (st : CascSt)
    (hc1 : IsCents st.b1) (hn1 : 0 ≤ st.b1)
    (hc2 : IsCents st.b2) (hn2 : 0 ≤ st.b2) :
    (cascSnapRecord st).balances = (st.b1 + st.b2) :: st.balances ∧
    (cascSnapRecord st).m1Balances = st.b1 :: st.m1Balances ∧
    (cascSnapRecord st).m2Balances = st.b2 :: st.m2Balances := by
  have hf1 : (if roundMoney st.b1 < 1 / 100 then (0 : ℚ) else roundMoney st.b1) = st.b1 := by
    rw [hc1.roundMoney_eq]
    split_ifs with h
    · exact (hc1.eq_zero_of_lt_cent hn1 h).symm
    · rfl
  have hf2 : (if roundMoney st.b2 < 1 / 100 then (0 : ℚ) else roundMoney st.b2) = st.b2 := by
    rw [hc2.roundMoney_eq]
    split_ifs with h
    · exact (hc2.eq_zero_of_lt_cent hn2 h).symm
    · rfl
  refine ⟨?_, ?_, ?_⟩
  · show roundMoney ((if roundMoney st.b1 < 1 / 100 then (0 : ℚ) else roundMoney st.b1)
      + (if roundMoney st.b2 < 1 / 100 then (0 : ℚ) else roundMoney st.b2)) :: st.balances = _
    rw [hf1, hf2, (hc1.add hc2).roundMoney_eq]
  · show roundMoney (if roundMoney st.b1 < 1 / 100 then (0 : ℚ) else roundMoney st.b1)
      :: st.m1Balances = _
    rw [hf1, hc1.roundMoney_eq]
  · show roundMoney (if roundMoney st.b2 < 1 / 100 then (0 : ℚ) else roundMoney st.b2)
      :: st.m2Balances = _
    rw [hf2, hc2.roundMoney_eq]

theorem cascYearEnd_balances (st : CascSt) : (cascYearEnd st).balances = st.balances := by
  rw [cascYearEnd]
  split_ifs <;> rfl

theorem cascYearEnd_m1Balances (st : CascSt) : (cascYearEnd st).m1Balances = st.m1Balances := by
  rw [cascYearEnd]
  split_ifs <;> rfl

theorem cascYearEnd_m2Balances (st : CascSt) : (cascYearEnd st).m2Balances = st.m2Balances := by
  rw [cascYearEnd]
  split_ifs <;> rfl

theorem cascYearEnd_yearInterest_nonneg (st : CascSt) (hyi : 0 ≤ st.yearInterest) :
    0 ≤ (cascYearEnd st).yearInterest := by
  rw [cascYearEnd]
  split_ifs
  · exact le_refl 0
  · exact hyi

theorem cascYearEnd_yearly_nonneg (st : CascSt) (hyi : 0 ≤ st.yearInterest)
    (hold : ∀ y ∈ st.yearly, 0 ≤ y.interest) :
    ∀ y ∈ (cascYearEnd st).yearly, 0 ≤ y.interest := by
  rw [cascYearEnd]
  split_ifs
  · intro y hy
    rcases List.mem_cons.mp hy with hy | hy
    · rw [hy]
      exact roundMoney_nonneg hyi
    · exact hold y hy
  · exact hold

theorem cascMonth_months (cfg : CascCfg) (st : CascSt) :
    (cascMonth cfg st).months = st.months + 1 := by
  rw [cascMonth, cascYearEnd_months, cascSnapRecord_months, cascAllocate_months,
    cascAccrue_months]

/-- Running invariant of the simulateCascade loop, relative to the two
starting balances: cents non-negative balances, non-negative interest
accumulators, and three recorded traces (combined and per-loan), each
with its head tracking the current balances, its oldest entry the
recorded starting entry, one entry per elapsed month, all entries
non-negative and non-increasing in time, plus non-negative yearly
interest rows. -/
def CascInv (s1 s2 : ℚ) (st : CascSt) : Prop :=
  IsCents st.b1 ∧ IsCents st.b2 ∧ 0 ≤ st.b1 ∧ 0 ≤ st.b2 ∧
  0 ≤ st.interestTotal ∧ 0 ≤ st.yearInterest ∧
  (∃ t, st.balances = (st.b1 + st.b2) :: t) ∧
  (∃ t, st.m1Balances = st.b1 :: t) ∧
  (∃ t, st.m2Balances = st.b2 :: t) ∧
  (∃ p, st.balances = p ++ [roundMoney (s1 + s2)]) ∧
  (∃ p, st.m1Balances = p ++ [roundMoney s1]) ∧
  (∃ p, st.m2Balances = p ++ [roundMoney s2]) ∧
  st.balances.length = st.months + 1 ∧
  st.m1Balances.length = st.months + 1 ∧
  st.m2Balances.length = st.months + 1 ∧
  (∀ x ∈ st.balances, 0 ≤ x) ∧
  (∀ x ∈ st.m1Balances, 0 ≤ x) ∧
  (∀ x ∈ st.m2Balances, 0 ≤ x) ∧
  List.Chain' (fun a b : ℚ => a ≤ b) st.balances ∧
  List.Chain' (fun a b : ℚ => a ≤ b) st.m1Balances ∧
  List.Chain' (fun a b : ℚ => a ≤ b) st.m2Balances ∧
  (∀ y ∈ st.yearly, 0 ≤ y.interest)

/-- One cascade month preserves the running invariant. -/
theorem cascMonth_inv (cfg : CascCfg) (s1 s2 : ℚ)
    (he1 : 0 ≤ cfg.extra1) (he2 : 0 ≤ cfg.extra2)
    (hs1 : 0 ≤ cfg.sched1) (hs2 : 0 ≤ cfg.sched2)
    (hr1 : 0 ≤ cfg.r1) (hr2 : 0 ≤ cfg.r2)
    (st : CascSt) (hst : CascInv s1 s2 st) : CascInv s1 s2 (cascMonth cfg st) := by
  obtain ⟨hc1, hc2, hb1, hb2, hit, hyi, ⟨tc, htc⟩, ⟨t1, ht1⟩, ⟨t2, ht2⟩,
    ⟨pc, hpc⟩, ⟨p1, hp1⟩, ⟨p2, hp2⟩, hlc, hl1, hl2, hnc, hn1, hn2,
    hchc, hch1, hch2, hyy⟩ := hst
  set A := cascAccrue cfg st with hA
  have hA1 : A.b1 = postSched st.b1 cfg.sched1 cfg.r1 := cascAccrue_b1 cfg st
  have hA2 : A.b2 = postSched st.b2 cfg.sched2 cfg.r2 := cascAccrue_b2 cfg st
  have hA1le : A.b1 ≤ st.b1 := by
    rw [hA1]
    exact postSched_le_self _ _ hc1
  have hA2le : A.b2 ≤ st.b2 := by
    rw [hA2]
    exact postSched_le_self _ _ hc2
  have hA1nn : 0 ≤ A.b1 := by
    rw [hA1]
    exact postSched_nonneg _ _ hb1
  have hA2nn : 0 ≤ A.b2 := by
    rw [hA2]
    exact postSched_nonneg _ _ hb2
  have hA1c : IsCents A.b1 := by
    rw [hA1]
    exact postSched_cents _ _ _
  have hA2c : IsCents A.b2 := by
    rw [hA2]
    exact postSched_cents _ _ _
  have hAit : 0 ≤ A.interestTotal := by
    rw [hA, cascAccrue_interestTotal]
    exact roundMoney_nonneg (add_nonneg (add_nonneg hit (monthInterest_nonneg _ hr1))
      (monthInterest_nonneg _ hr2))
  have hAyi : 0 ≤ A.yearInterest := by
    rw [hA, cascAccrue_yearInterest]
    exact roundMoney_nonneg (add_nonneg (add_nonneg hyi (monthInterest_nonneg _ hr1))
      (monthInterest_nonneg _ hr2))
  set L := cascAllocate cfg A with hL
  have hfrom := cascFrom_nonneg cfg he1 he2 hs1 hs2 A.b1 A.b2
  have hL1 := cascAllocate_b1_bounds cfg A hfrom.1 hfrom.2 hA1nn hA1c
  have hL2 := cascAllocate_b2_bounds cfg A hfrom.1 hfrom.2 hA2nn hA2c
  set S := cascSnapRecord L with hS
  have hSb1 : S.b1 = L.b1 := cascSnapRecord_b1_of_cents L hL1.2.2 hL1.2.1
  have hSb2 : S.b2 = L.b2 := cascSnapRecord_b2_of_cents L hL2.2.2 hL2.2.1
  obtain ⟨hStc, hSt1, hSt2⟩ :=
    cascSnapRecord_traces_of_cents L hL1.2.2 hL1.2.1 hL2.2.2 hL2.2.1
  have hLbal : L.balances = st.balances := by
    rw [hL, cascAllocate_balances, hA, cascAccrue_balances]
  have hLm1 : L.m1Balances = st.m1Balances := by
    rw [hL, cascAllocate_m1Balances, hA, cascAccrue_m1Balances]
  have hLm2 : L.m2Balances = st.m2Balances := by
    rw [hL, cascAllocate_m2Balances, hA, cascAccrue_m2Balances]
  have hLit : L.interestTotal = A.interestTotal := by
    rw [hL, cascAllocate_interestTotal]
  have hLyi : L.yearInterest = A.yearInterest := by
    rw [hL, cascAllocate_yearInterest]
  have hLyy : L.yearly = st.yearly := by
    rw [hL, cascAllocate_yearly, hA, cascAccrue_yearly]
  have hM : cascMonth cfg st = cascYearEnd S := by
    rw [cascMonth, hS, hL, hA]
  have hMb1 : (cascMonth cfg st).b1 = L.b1 := by
    rw [hM, cascYearEnd_b1, hSb1]
  have hMb2 : (cascMonth cfg st).b2 = L.b2 := by
    rw [hM, cascYearEnd_b2, hSb2]
  have hMbal : (cascMonth cfg st).balances = (L.b1 + L.b2) :: st.balances := by
    rw [hM, cascYearEnd_balances, hStc, hLbal]
  have hMm1 : (cascMonth cfg st).m1Balances = L.b1 :: st.m1Balances := by
    rw [hM, cascYearEnd_m1Balances, hSt1, hLm1]
  have hMm2 : (cascMonth cfg st).m2Balances = L.b2 :: st.m2Balances := by
    rw [hM, cascYearEnd_m2Balances, hSt2, hLm2]
  have hMmo : (cascMonth cfg st).months = st.months + 1 := cascMonth_months cfg st
  have hMit : (cascMonth cfg st).interestTotal = A.interestTotal := by
    rw [hM, cascYearEnd_interestTotal, hS, cascSnapRecord_interestTotal, hLit]
  have hL1le : L.b1 ≤ st.b1 := le_trans hL1.1 hA1le
  have hL2le : L.b2 ≤ st.b2 := le_trans hL2.1 hA2le
  refine ⟨?_, ?_, ?_, ?_, ?_, ?_, ?_, ?_, ?_, ?_, ?_, ?_, ?_, ?_, ?_, ?_, ?_, ?_,
    ?_, ?_, ?_, ?_⟩
  · rw [hMb1]
    exact hL1.2.2
  · rw [hMb2]
    exact hL2.2.2
  · rw [hMb1]
    exact hL1.2.1
  · rw [hMb2]
    exact hL2.2.1
  · rw [hMit]
    exact hAit
  · rw [hM]
    apply cascYearEnd_yearInterest_nonneg
    rw [hS, cascSnapRecord_yearInterest, hLyi]
    exact hAyi
  · exact ⟨st.balances, by rw [hMbal, hMb1, hMb2]⟩
  · exact ⟨st.m1Balances, by rw [hMm1, hMb1]⟩
  · exact ⟨st.m2Balances, by rw [hMm2, hMb2]⟩
  · refine ⟨(L.b1 + L.b2) :: pc, ?_⟩
    rw [hMbal, hpc]
    rfl
  · refine ⟨L.b1 :: p1, ?_⟩
    rw [hMm1, hp1]
    rfl
  · refine ⟨L.b2 :: p2, ?_⟩
    rw [hMm2, hp2]
    rfl
  · rw [hMbal, List.length_cons, hlc, hMmo]
  · rw [hMm1, List.length_cons, hl1, hMmo]
  · rw [hMm2, List.length_cons, hl2, hMmo]
  · intro x hx
    rw [hMbal] at hx
    rcases List.mem_cons.mp hx with hx | hx
    · rw [hx]
      exact add_nonneg hL1.2.1 hL2.2.1
    · exact hnc x hx
  · intro x hx
    rw [hMm1] at hx
    rcases List.mem_cons.mp hx with hx | hx
    · rw [hx]
      exact hL1.2.1
    · exact hn1 x hx
  · intro x hx
    rw [hMm2] at hx
    rcases List.mem_cons.mp hx with hx | hx
    · rw [hx]
      exact hL2.2.1
    · exact hn2 x hx
  · rw [hMbal, htc]
    exact List.chain'_cons.mpr ⟨add_le_add hL1le hL2le, htc ▸ hchc⟩
  · rw [hMm1, ht1]
    exact List.chain'_cons.mpr ⟨hL1le, ht1 ▸ hch1⟩
  · rw [hMm2, ht2]
    exact List.chain'_cons.mpr ⟨hL2le, ht2 ▸ hch2⟩
  · rw [hM]
    apply cascYearEnd_yearly_nonneg
    · rw [hS, cascSnapRecord_yearInterest, hLyi]
      exact hAyi
    · rw [hS, cascSnapRecord_yearly, hLyy]
      exact hyy

theorem cascGo_inv (cfg : CascCfg) (s1 s2 : ℚ)
    (he1 : 0 ≤ cfg.extra1) (he2 : 0 ≤ cfg.extra2)
    (hs1 : 0 ≤ cfg.sched1) (hs2 : 0 ≤ cfg.sched2)
    (hr1 : 0 ≤ cfg.r1) (hr2 : 0 ≤ cfg.r2) :
    ∀ (fuel : ℕ) (st : CascSt), CascInv s1 s2 st →
      CascInv s1 s2 (cascGo cfg fuel st) := by
  intro fuel
  induction fuel with
  | zero =>
    intro st hst
    exact hst
  | succ n ih =>
    intro st hst
    by_cases hstop : st.b1 ≤ 0 ∧ st.b2 ≤ 0
    · simp only [cascGo, if_pos hstop]
      exact hst
    · simp only [cascGo, if_neg hstop]
      exact ih _ (cascMonth_inv cfg s1 s2 he1 he2 hs1 hs2 hr1 hr2 st hst)

theorem cascGo_months_le (cfg : CascCfg) :
    ∀ (fuel : ℕ) (st : CascSt), (cascGo cfg fuel st).months ≤ st.months + fuel := by
  intro fuel
  induction fuel with
  | zero =>
    intro st
    exact Nat.le_refl _
  | succ n ih =>
    intro st
    by_cases hstop : st.b1 ≤ 0 ∧ st.b2 ≤ 0
    · simp only [cascGo, if_pos hstop]
      omega
    · simp only [cascGo, if_neg hstop]
      have h3 := ih (cascMonth cfg st)
      rw [cascMonth_months] at h3
      omega

theorem cascGo_exit (cfg : CascCfg) :
    ∀ (fuel : ℕ) (st : CascSt),
      (cascGo cfg fuel st).months ≠ st.months + fuel →
      (cascGo cfg fuel st).b1 ≤ 0 ∧ (cascGo cfg fuel st).b2 ≤ 0 := by
  intro fuel
  induction fuel with
  | zero =>
    intro st h
    exact absurd rfl h
  | succ n ih =>
    intro st h
    by_cases hstop : st.b1 ≤ 0 ∧ st.b2 ≤ 0
    · simp only [cascGo, if_pos hstop] at h ⊢
      exact hstop
    · simp only [cascGo, if_neg hstop] at h ⊢
      refine ih _ (fun heq => h ?_)
      rw [heq, cascMonth_months]
      omega

theorem simulateCascade_ok_traces (m1 m2 : Mortgage) (e1 e2 : ℚ)
    (rS rE : Bool) (strat : Strategy) (c : CascadeResult)
    (h : simulateCascade m1 m2 e1 e2 rS rE strat = Except.ok c) :
    c.balances = (cascGo (CascCfg.mk m1 m2 e1 e2 rS rE strat)
        MAX_MONTHS (cascInit m1 m2)).balances.reverse ∧
    c.m1Balances = (cascGo (CascCfg.mk m1 m2 e1 e2 rS rE strat)
        MAX_MONTHS (cascInit m1 m2)).m1Balances.reverse ∧
    c.m2Balances = (cascGo (CascCfg.mk m1 m2 e1 e2 rS rE strat)
        MAX_MONTHS (cascInit m1 m2)).m2Balances.reverse ∧
    c.yearly = (cascGo (CascCfg.mk m1 m2 e1 e2 rS rE strat)
        MAX_MONTHS (cascInit m1 m2)).yearly.reverse := by
  rw [simulateCascade] at h
  by_cases hm : (cascGo (CascCfg.mk m1 m2 e1 e2 rS rE strat)
      MAX_MONTHS (cascInit m1 m2)).months = MAX_MONTHS
  · rw [if_pos hm] at h
    exact Except.noConfusion h
  · rw [if_neg hm] at h
    refine ⟨?_, ?_, ?_, ?_⟩ <;> rw [← Except.ok.inj h]

theorem computeScheduledPayment_nonneg (m : Mortgage) (hb : 0 ≤ m.balance)
    (hr : 0 ≤ m.rate) : 0 ≤ computeScheduledPayment m := by
  have hfi : 0 ≤ roundMoney (m.balance * (m.rate / 100 / 12)) :=
    roundMoney_nonneg (mul_nonneg hb (by positivity))
  have hs1 : 0 ≤ (if roundMoney (monthlyPayment m.balance m.rate m.months) < 1 / 100
      then (1 : ℚ) / 100 else roundMoney (monthlyPayment m.balance m.rate m.months)) := by
    split_ifs with h
    · norm_num
    · linarith [not_lt.mp h]
  show 0 ≤ (if 0 < m.rate then
      (if (if roundMoney (monthlyPayment m.balance m.rate m.months) < 1 / 100
            then (1 : ℚ) / 100 else roundMoney (monthlyPayment m.balance m.rate m.months))
          ≤ roundMoney (m.balance * (m.rate / 100 / 12))
        then roundMoney (roundMoney (m.balance * (m.rate / 100 / 12)) + 1 / 100)
        else (if roundMoney (monthlyPayment m.balance m.rate m.months) < 1 / 100
            then (1 : ℚ) / 100 else roundMoney (monthlyPayment m.balance m.rate m.months)))
    else (if roundMoney (monthlyPayment m.balance m.rate m.months) < 1 / 100
        then (1 : ℚ) / 100 else roundMoney (monthlyPayment m.balance m.rate m.months)))
  by_cases h1 : 0 < m.rate
  · rw [if_pos h1]
    by_cases hA : roundMoney (monthlyPayment m.balance m.rate m.months) < 1 / 100
    · simp only [if_pos hA]
      split_ifs with hB
      · exact roundMoney_nonneg (add_nonneg hfi (by norm_num))
      · norm_num
    · simp only [if_neg hA]
      split_ifs with hB
      · exact roundMoney_nonneg (add_nonneg hfi (by norm_num))
      · linarith [not_lt.mp hA]
  · rw [if_neg h1]
    exact hs1

/-- All invariant and shape facts about a cascade run that returned
normally, for cents non-negative starting balances, non-negative rates
and non-negative extras. -/
theorem simulateCascade_ok_facts (m1 m2 : Mortgage) (e1 e2 : ℚ) (rS rE : Bool)
    (strat : Strategy) (c : CascadeResult)
    (hc1 : IsCents m1.balance) (hb1 : 0 ≤ m1.balance) (hr1 : 0 ≤ m1.rate)
    (hc2 : IsCents m2.balance) (hb2 : 0 ≤ m2.balance) (hr2 : 0 ≤ m2.rate)
    (he1 : 0 ≤ e1) (he2 : 0 ≤ e2)
    (h : simulateCascade m1 m2 e1 e2 rS rE strat = Except.ok c) :
    (c.balances.length = c.months + 1 ∧
      c.balances.head? = some (roundMoney (m1.balance + m2.balance)) ∧
      c.balances.getLast? = some 0 ∧
      (∀ x ∈ c.balances, 0 ≤ x) ∧
      List.Chain' (fun a b : ℚ => b ≤ a) c.balances) ∧
    (c.m1Balances.length = c.months + 1 ∧
      c.m1Balances.head? = some (roundMoney m1.balance) ∧
      c.m1Balances.getLast? = some 0 ∧
      (∀ x ∈ c.m1Balances, 0 ≤ x) ∧
      List.Chain' (fun a b : ℚ => b ≤ a) c.m1Balances) ∧
    (c.m2Balances.length = c.months + 1 ∧
      c.m2Balances.head? = some (roundMoney m2.balance) ∧
      c.m2Balances.getLast? = some 0 ∧
      (∀ x ∈ c.m2Balances, 0 ≤ x) ∧
      List.Chain' (fun a b : ℚ => b ≤ a) c.m2Balances) ∧
    0 ≤ c.interest ∧
    (∀ y ∈ c.yearly, 0 ≤ y.interest) := by
  obtain ⟨hcap, hcm, hci⟩ := simulateCascade_ok_elim m1 m2 e1 e2 rS rE strat c h
  obtain ⟨hTc, hT1, hT2, hTy⟩ := simulateCascade_ok_traces m1 m2 e1 e2 rS rE strat c h
  have hsch1 : 0 ≤ (CascCfg.mk m1 m2 e1 e2 rS rE strat).sched1 :=
    computeScheduledPayment_nonneg m1 hb1 hr1
  have hsch2 : 0 ≤ (CascCfg.mk m1 m2 e1 e2 rS rE strat).sched2 :=
    computeScheduledPayment_nonneg m2 hb2 hr2
  have hrr1 : 0 ≤ (CascCfg.mk m1 m2 e1 e2 rS rE strat).r1 := by
    show (0 : ℚ) ≤ m1.rate / 100 / 12
    positivity
  have hrr2 : 0 ≤ (CascCfg.mk m1 m2 e1 e2 rS rE strat).r2 := by
    show (0 : ℚ) ≤ m2.rate / 100 / 12
    positivity
  have hinit : CascInv m1.balance m2.balance (cascInit m1 m2) := by
    refine ⟨hc1, hc2, hb1, hb2, le_refl 0, le_refl 0,
      ⟨[], by
        show [roundMoney (m1.balance + m2.balance)] = [m1.balance + m2.balance]
        rw [(hc1.add hc2).roundMoney_eq]⟩,
      ⟨[], by
        show [roundMoney m1.balance] = [m1.balance]
        rw [hc1.roundMoney_eq]⟩,
      ⟨[], by
        show [roundMoney m2.balance] = [m2.balance]
        rw [hc2.roundMoney_eq]⟩,
      ⟨[], rfl⟩, ⟨[], rfl⟩, ⟨[], rfl⟩, rfl, rfl, rfl, ?_, ?_, ?_,
      List.chain'_singleton _, List.chain'_singleton _, List.chain'_singleton _, ?_⟩
    · intro x hx
      rw [List.mem_singleton.mp hx]
      exact roundMoney_nonneg (add_nonneg hb1 hb2)
    · intro x hx
      rw [List.mem_singleton.mp hx]
      exact roundMoney_nonneg hb1
    · intro x hx
      rw [List.mem_singleton.mp hx]
      exact roundMoney_nonneg hb2
    · intro y hy
      exact absurd hy (List.not_mem_nil y)
  have hinv := cascGo_inv (CascCfg.mk m1 m2 e1 e2 rS rE strat) m1.balance m2.balance
    he1 he2 hsch1 hsch2 hrr1 hrr2 MAX_MONTHS (cascInit m1 m2) hinit
  set out := cascGo (CascCfg.mk m1 m2 e1 e2 rS rE strat) MAX_MONTHS (cascInit m1 m2) with hout
  obtain ⟨hoc1, hoc2, hob1, hob2, hoit, hoyi, ⟨tc, htc⟩, ⟨t1, ht1⟩, ⟨t2, ht2⟩,
    ⟨pc, hpc⟩, ⟨p1, hp1⟩, ⟨p2, hp2⟩, hlc, hl1, hl2, hnc, hn1, hn2,
    hchc, hch1, hch2, hyy⟩ := hinv
  have hdone : out.b1 ≤ 0 ∧ out.b2 ≤ 0 := by
    apply cascGo_exit
    intro hcon
    apply hcap
    rw [hcon]
    rfl
  have hz1 : out.b1 = 0 := le_antisymm hdone.1 hob1
  have hz2 : out.b2 = 0 := le_antisymm hdone.2 hob2
  refine ⟨⟨?_, ?_, ?_, ?_, ?_⟩, ⟨?_, ?_, ?_, ?_, ?_⟩, ⟨?_, ?_, ?_, ?_, ?_⟩, ?_, ?_⟩
  · rw [hTc, List.length_reverse, hlc, hcm]
  · rw [hTc, hpc, List.reverse_append, List.reverse_singleton, List.singleton_append]
    rfl
  · rw [hTc, htc, List.reverse_cons, List.getLast?_concat, hz1, hz2, add_zero]
  · intro x hx
    rw [hTc] at hx
    exact hnc x (List.mem_reverse.mp hx)
  · rw [hTc]
    exact List.chain'_reverse.mpr hchc
  · rw [hT1, List.length_reverse, hl1, hcm]
  · rw [hT1, hp1, List.reverse_append, List.reverse_singleton, List.singleton_append]
    rfl
  · rw [hT1, ht1, List.reverse_cons, List.getLast?_concat, hz1]
  · intro x hx
    rw [hT1] at hx
    exact hn1 x (List.mem_reverse.mp hx)
  · rw [hT1]
    exact List.chain'_reverse.mpr hch1
  · rw [hT2, List.length_reverse, hl2, hcm]
  · rw [hT2, hp2, List.reverse_append, List.reverse_singleton, List.singleton_append]
    rfl
  · rw [hT2, ht2, List.reverse_cons, List.getLast?_concat, hz2]
  · intro x hx
    rw [hT2] at hx
    exact hn2 x (List.mem_reverse.mp hx)
  · rw [hT2]
    exact List.chain'_reverse.mpr hch2
  · rw [hci]
    exact roundMoney_nonneg hoit
  · intro y hy
    rw [hTy] at hy
    exact hyy y (List.mem_reverse.mp hy)
